import Mathlib

/-
Verification of the fNIRS channel-metadata utilities of
mne/preprocessing/nirs/nirs.py.

The channel-metadata record (the measurement-info object) is modelled as a
list of channel descriptors plus a list of bad-channel names.  Floating-point
location entries are modelled as rationals; the loc[9] wavelength slot is an
Option so that a missing value (NaN in the source) is representable.  The
Euclidean norm of numpy is modelled with Real.sqrt over the rationals cast
to the reals.  Python exceptions are modelled with an Except monad whose
error type distinguishes the exception classes that can escape the
translated functions.
-/

/-- The channel-type tag of a channel descriptor.  The four fNIRS types used
by the module are represented, every other channel type is collapsed into
`other`. -/
inductive ChType where
  | fnirs_cw_amplitude
  | fnirs_od
  | hbo
  | hbr
  | other
deriving DecidableEq, Repr

/-- A 3-d coordinate triple (one of the xyz blocks of a location vector),
components as rationals. -/
structure Vec3 where
  x : ℚ
  y : ℚ
  z : ℚ
deriving DecidableEq, Repr

/-- One channel descriptor of the metadata record: name, type tag and the
parts of the location vector the module reads: loc[3:6] (source position),
loc[6:9] (detector position) and loc[9] (nominal wavelength, `none` models
NaN / missing). -/
structure Channel where
  ch_name : String
  ch_type : ChType
  loc3 : Vec3
  loc6 : Vec3
  loc9 : Option ℚ
deriving DecidableEq, Repr

instance : Inhabited Channel :=
  ⟨{ ch_name := "", ch_type := ChType.other,
     loc3 := ⟨0, 0, 0⟩, loc6 := ⟨0, 0, 0⟩, loc9 := none }⟩

/-- The channel-metadata record: an ordered sequence of channel descriptors
and the list of bad-channel names.  Modelled from the spec: the record is
owned by the host toolkit (its class is not part of the source under
verification); the spec describes it as an ordered sequence of channel
descriptors plus a separate bads set. -/
structure Info where
  chs : List Channel
  bads : List String
deriving DecidableEq, Repr

/-- `info.ch_names`: the channel names in channel order. -/
def ch_names (info : Info) : List String :=
  info.chs.map (fun ch => ch.ch_name)

/-- Modelled from the spec: `_picks_to_idx(info, types, exclude=[],
allow_empty=True)` of the host toolkit (mne.io.pick, not part of the source
under verification) returns the indices, in increasing order, of the
channels whose type tag belongs to the requested type family. -/
def picks_to_idx (info : Info) (types : List ChType) : List ℕ :=
  (List.range info.chs.length).filter
    (fun i => decide ((info.chs.getD i default).ch_type ∈ types))

/-- The wavelength family: `['fnirs_cw_amplitude', 'fnirs_od']`. -/
def wavelengthTypes : List ChType := [ChType.fnirs_cw_amplitude, ChType.fnirs_od]

/-- The chromophore family: `['hbo', 'hbr']`. -/
def chromaTypes : List ChType := [ChType.hbo, ChType.hbr]

/-- The full fNIRS family selected by `_picks_to_idx(info, 'fnirs')`. -/
def fnirsTypes : List ChType :=
  [ChType.fnirs_cw_amplitude, ChType.fnirs_od, ChType.hbo, ChType.hbr]

/-- Python slicing `l[::2]`: every second element, starting at index 0. -/
def everySecond : List α → List α
  | [] => []
  | [a] => [a]
  | a :: _ :: rest => a :: everySecond rest

/-- The numeric value of a digit string (base 10), as `int(...)` of the
digits. -/
def digitsToNat (l : List Char) : ℕ :=
  l.foldl (fun a c => a * 10 + (c.toNat - 48)) 0

/-- `float(...)` of a decimal literal made of an integer digit part `ip` and
a fractional digit part `fp` (the part after the optional dot). -/
def ratOfDigits (ip fp : List Char) : ℚ :=
  match fp with
  | [] => (digitsToNat ip : ℚ)
  | _ => (digitsToNat ip : ℚ) + (digitsToNat fp : ℚ) / (10 : ℚ) ^ fp.length

/-- A word character of the `\w` regex class (ASCII range, as used by the
standardized channel names). -/
def isWordChar (c : Char) : Bool := c.isAlphanum || c = '_'

/-- The three groups of the wavelength pattern `S(\d+)_D(\d+) (\d+\.?\d*)`:
source digits, detector digits (kept as digit strings, the source compares
them as strings) and the third group converted by `float(...)`. -/
structure FMatch where
  src : List Char
  det : List Char
  val : ℚ
deriving DecidableEq, Repr

/-- The three groups of the word pattern `S(\d+)_D(\d+) (\w+)`. -/
structure HMatch where
  src : List Char
  det : List Char
  val : String
deriving DecidableEq, Repr

/-- `_S_D_F_RE.match(name)`: anchored match of
`S(\d+)_D(\d+) (\d+\.?\d*)` at the start of `name` (trailing characters are
allowed, as with `re.match`).  The greedy `\d+` groups never backtrack
against the following literal, so a take-while parse is equivalent. -/
def match_S_D_F (name : String) : Option FMatch :=
  match name.toList with
  | 'S' :: r0 =>
    match r0.span Char.isDigit with
    | ([], _) => none
    | (sd, r1) =>
      match r1 with
      | '_' :: 'D' :: r2 =>
        match r2.span Char.isDigit with
        | ([], _) => none
        | (dd, r3) =>
          match r3 with
          | ' ' :: r4 =>
            match r4.span Char.isDigit with
            | ([], _) => none
            | (ip, r5) =>
              let fp : List Char :=
                match r5 with
                | '.' :: r6 => (r6.span Char.isDigit).1
                | _ => []
              some ⟨sd, dd, ratOfDigits ip fp⟩
          | _ => none
      | _ => none
  | _ => none

/-- `_S_D_H_RE.match(name)`: anchored match of `S(\d+)_D(\d+) (\w+)` at the
start of `name`. -/
def match_S_D_H (name : String) : Option HMatch :=
  match name.toList with
  | 'S' :: r0 =>
    match r0.span Char.isDigit with
    | ([], _) => none
    | (sd, r1) =>
      match r1 with
      | '_' :: 'D' :: r2 =>
        match r2.span Char.isDigit with
        | ([], _) => none
        | (dd, r3) =>
          match r3 with
          | ' ' :: r4 =>
            match r4.span isWordChar with
            | ([], _) => none
            | (w, _) => some ⟨sd, dd, w.asString⟩
          | _ => none
      | _ => none
  | _ => none

/-- An entry of the `pair_vals` argument: the callers pass either floats
(unique nominal wavelengths) or strings (unique chromophore labels).  A
Python comparison between a float and a string is never equal, which the
disjoint constructors reproduce. -/
inductive PairVal where
  | num (q : ℚ)
  | str (s : String)
deriving DecidableEq, Repr

/-- The Python exception classes that can escape the translated functions. -/
inductive PyErr where
  | valueError
  | runtimeError
  | attributeError
  | indexError
deriving DecidableEq, Repr

deriving instance DecidableEq for Except

/-- `_throw_or_return_empty(msg, throw_errors)`: raise `ValueError` or
return the empty pick list. -/
def throw_or_return_empty (throw_errors : Bool) : Except PyErr (List ℕ) :=
  if throw_errors then Except.error PyErr.valueError else Except.ok []

/-- The slice `names[ii:ii+2]` of the channel-name list. -/
def slice2 (names : List String) (ii : ℕ) : List String :=
  (names.drop ii).take 2

/-- `list(set(info['bads']).intersection(want))` for
`want = info.ch_names[ii:ii+2]`: the distinct names of the slice that are
bad.  Only its length is used. -/
def gotList (info : Info) (ii : ℕ) : List String :=
  ((slice2 (ch_names info) ii).dedup).filter (fun n => decide (n ∈ info.bads))

/-- The loop of `_fnirs_check_bads` over the even-position fNIRS picks:
raise `RuntimeError` as soon as exactly one distinct name of a pair slice is
bad. -/
def check_bads_loop (info : Info) : List ℕ → Except PyErr Unit
  | [] => Except.ok ()
  | ii :: rest =>
    if (gotList info ii).length = 1 then Except.error PyErr.runtimeError
    else check_bads_loop info rest

/-- `_fnirs_check_bads(info)`: check that bad labelling is consistent over
every fNIRS optode pair. -/
def fnirs_check_bads (info : Info) : Except PyErr Unit :=
  check_bads_loop info (everySecond (picks_to_idx info fnirsTypes))

/-- Does the slice `names[ii:ii+2]` contain a bad name?  (`len(bad_opto) > 0`
in `_fnirs_spread_bads`.) -/
def sliceHasBad (bads names : List String) (ii : ℕ) : Bool :=
  (slice2 names ii).any (fun n => decide (n ∈ bads))

/-- The accumulation loop of `_fnirs_spread_bads`: extend `new_bads` with
both names of every pair slice that contains a bad name. -/
def spread_bads_loop (names bads : List String) : List ℕ → List String → List String
  | [], acc => acc
  | ii :: rest, acc =>
    spread_bads_loop names bads rest
      (if sliceHasBad bads names ii then acc ++ slice2 names ii else acc)

/-- `_fnirs_spread_bads(info)`: rewrite `info['bads']` so that whenever one
name of an fNIRS pair slice is bad, both names of the slice are bad. -/
def fnirs_spread_bads (info : Info) : Info :=
  { info with
    bads := spread_bads_loop (ch_names info) info.bads
      (everySecond (picks_to_idx info fnirsTypes)) [] }

/-- One iteration of the pair loop of `_check_channels_ordered` for the two
channels `ch1 = chs[ii]` and `ch2 = chs[ii+1]`, threading the current value
of the `picks` variable.  Mirrors the source: try the wavelength pattern on
both names; on failure of either, try the word pattern on both; if those
also fail, `_throw_or_return_empty` runs and then the source dereferences
`None.groups()`, an `AttributeError`.  In the word branch the chromophore
labels are checked first, then both branches run the shared
source/detector/value comparison. -/
def check_pair_step (pv : PairVal × PairVal) (throw_errors : Bool)
    (ch1 ch2 : Channel) (picks : List ℕ) : Except PyErr (List ℕ) :=
  match match_S_D_F ch1.ch_name, match_S_D_F ch2.ch_name with
  | some m1, some m2 =>
    if m1.src ≠ m2.src ∨ m1.det ≠ m2.det ∨
        PairVal.num m1.val ≠ pv.1 ∨ PairVal.num m2.val ≠ pv.2 then
      throw_or_return_empty throw_errors
    else Except.ok picks
  | _, _ =>
    match match_S_D_H ch1.ch_name, match_S_D_H ch2.ch_name with
    | some h1, some h2 =>
      (if ¬ (h1.val = "hbo" ∨ h1.val = "hbr") ∨ ¬ (h2.val = "hbo" ∨ h2.val = "hbr") then
        throw_or_return_empty throw_errors
      else Except.ok picks).bind (fun picks1 =>
        if h1.src ≠ h2.src ∨ h1.det ≠ h2.det ∨
            PairVal.str h1.val ≠ pv.1 ∨ PairVal.str h2.val ≠ pv.2 then
          throw_or_return_empty throw_errors
        else Except.ok picks1)
    | _, _ =>
      (throw_or_return_empty throw_errors).bind
        (fun _ => Except.error PyErr.attributeError)

/-- The pair loop `for ii in picks[::2]` of `_check_channels_ordered`.  The
iteration list is fixed at loop entry; the `picks` variable is threaded, as
a failing check with suppressed errors reassigns it to the empty list while
the loop keeps running.  Reading `chs[ii]` or `chs[ii+1]` out of range is an
`IndexError`. -/
def check_pairs_loop (info : Info) (pv : PairVal × PairVal) (throw_errors : Bool) :
    List ℕ → List ℕ → Except PyErr (List ℕ)
  | [], picks => Except.ok picks
  | ii :: rest, picks =>
    match info.chs[ii]?, info.chs[ii + 1]? with
    | some ch1, some ch2 =>
      (check_pair_step pv throw_errors ch1 ch2 picks).bind
        (fun picks1 => check_pairs_loop info pv throw_errors rest picks1)
    | _, _ => Except.error PyErr.indexError

/-- `_check_channels_ordered(info, pair_vals, throw_errors)`: the fNIRS
naming-convention validator.  Chromophore picks are stacked before
wavelength picks; the mixed-family, even-count and wavelength-presence
checks run first (each either raising or emptying `picks`), then the pair
loop, then `_fnirs_check_bads`. -/
def check_channels_ordered (info : Info) (pv : PairVal × PairVal)
    (throw_errors : Bool := true) : Except PyErr (List ℕ) :=
  let picks_wave := picks_to_idx info wavelengthTypes
  let picks_chroma := picks_to_idx info chromaTypes
  (if 0 < picks_wave.length ∧ 0 < picks_chroma.length then
    throw_or_return_empty throw_errors
  else Except.ok (picks_chroma ++ picks_wave)).bind (fun picks1 =>
  (if picks1.length % 2 ≠ 0 then
    throw_or_return_empty throw_errors
  else Except.ok picks1).bind (fun picks2 =>
  (if (picks_wave.map (fun ii => (info.chs.getD ii default).loc9)).any
      (fun f => f.isNone) then
    throw_or_return_empty throw_errors
  else Except.ok picks2).bind (fun picks3 =>
  (check_pairs_loop info pv throw_errors (everySecond picks3) picks3).bind
    (fun picks4 =>
  (fnirs_check_bads info).bind (fun _ => Except.ok picks4)))))

/-- `np.linalg.norm(ch['loc'][3:6] - ch['loc'][6:9])`: the Euclidean norm of
the source-minus-detector coordinate difference of one channel. -/
noncomputable def sd_dist (ch : Channel) : ℝ :=
  Real.sqrt (((ch.loc3.x - ch.loc6.x : ℚ) : ℝ) ^ 2 +
    ((ch.loc3.y - ch.loc6.y : ℚ) : ℝ) ^ 2 +
    ((ch.loc3.z - ch.loc6.z : ℚ) : ℝ) ^ 2)

/-- `source_detector_distances(info, picks)`: the per-channel distances,
indexed by the requested picks.  Modelled from the spec:
`_picks_to_idx(info, None, exclude=[])` of the host toolkit resolves the
default `picks=None` to all channel indices in order; an explicit selection
is a list of valid channel indices. -/
noncomputable def source_detector_distances (info : Info)
    (picks : Option (List ℕ) := none) : List ℝ :=
  let dist := info.chs.map sd_dist
  match picks with
  | none => dist
  | some ps => ps.map (fun p => dist.getD p 0)

/-- `short_channels(info, threshold=0.01)`: elementwise
`source_detector_distances(info) < threshold`. -/
noncomputable def short_channels (info : Info) (threshold : ℝ := 0.01) : List Prop :=
  (source_detector_distances info none).map (fun d => d < threshold)

/-- A coordinate triple as a point of the Euclidean space ℝ³. -/
noncomputable def toE3 (v : Vec3) : EuclideanSpace ℝ (Fin 3) :=
  (WithLp.equiv 2 (Fin 3 → ℝ)).symm ![(v.x : ℝ), (v.y : ℝ), (v.z : ℝ)]

/-- Spec-side definition of the Euclidean distance between the source block
loc[3:6] and the detector block loc[6:9] of a channel, phrased through the
metric of the Euclidean space ℝ³ rather than through the formula the code
computes. -/
noncomputable def euclSourceDetectorDist (ch : Channel) : ℝ :=
  dist (toE3 ch.loc3) (toE3 ch.loc6)

/-- The channel with source and detector coordinate blocks exchanged. -/
def swapSD (ch : Channel) : Channel :=
  { ch with loc3 := ch.loc6, loc6 := ch.loc3 }

/-- The name of channel `i`, read off the channel-name list. -/
def nameAt (info : Info) (i : ℕ) : String :=
  (ch_names info).getD i ("")

/-- The fNIRS picks arranged as consecutive pairs: even length and each
even-position pick followed by the next channel index. -/
def pairedB : List ℕ → Bool
  | [] => true
  | [_] => false
  | a :: b :: rest => decide (b = a + 1) && pairedB rest

/-- Within-pair bad-label consistency at slice `ii`: the two names of a full
pair are distinct and are either both bad or both good; a lone trailing name
is not bad. -/
def consistentBadsAt (info : Info) (ii : ℕ) : Bool :=
  match slice2 (ch_names info) ii with
  | [n1, n2] => decide (n1 ≠ n2 ∧ (n1 ∈ info.bads ↔ n2 ∈ info.bads))
  | [n1] => decide (n1 ∉ info.bads)
  | _ => true

/-- Exactly one of the two members of the pair starting at channel `ii` is
listed in bads. -/
def xorBadAt (info : Info) (ii : ℕ) : Prop :=
  (nameAt info ii ∈ info.bads ∧ nameAt info (ii + 1) ∉ info.bads) ∨
  (nameAt info ii ∉ info.bads ∧ nameAt info (ii + 1) ∈ info.bads)

instance (info : Info) (ii : ℕ) : Decidable (xorBadAt info ii) := by
  unfold xorBadAt; exact inferInstance

-- ======================================================================
-- Pair predicates (renderings of the claims' pair conditions)
-- ======================================================================

/-- The claim-side success condition for one channel pair: both names parse
with the wavelength pattern, agree on the source and detector groups and
carry the two expected values in order; or the wavelength pattern fails on
one of them, both parse with the word pattern, both labels are chromophore
labels, and groups and values agree as before. -/
def pairOk (pv : PairVal × PairVal) (ch1 ch2 : Channel) : Bool :=
  match match_S_D_F ch1.ch_name, match_S_D_F ch2.ch_name with
  | some m1, some m2 =>
    decide (m1.src = m2.src ∧ m1.det = m2.det ∧
      PairVal.num m1.val = pv.1 ∧ PairVal.num m2.val = pv.2)
  | _, _ =>
    match match_S_D_H ch1.ch_name, match_S_D_H ch2.ch_name with
    | some h1, some h2 =>
      decide ((h1.val = "hbo" ∨ h1.val = "hbr") ∧ (h2.val = "hbo" ∨ h2.val = "hbr") ∧
        h1.src = h2.src ∧ h1.det = h2.det ∧
        PairVal.str h1.val = pv.1 ∧ PairVal.str h2.val = pv.2)
    | _, _ => false

/-- Both names of a pair parse with the pattern the pair loop ends up
using (wavelength pattern on both, or word pattern on both). -/
def parseablePair (ch1 ch2 : Channel) : Bool :=
  ((match_S_D_F ch1.ch_name).isSome && (match_S_D_F ch2.ch_name).isSome) ||
  ((match_S_D_H ch1.ch_name).isSome && (match_S_D_H ch2.ch_name).isSome)

/-- The claim-side failure condition for one parseable channel pair: a
non-chromophore label in the word branch, or disagreeing source/detector
groups, or values different from the expected ordered pair. -/
def pairViolation (pv : PairVal × PairVal) (ch1 ch2 : Channel) : Bool :=
  match match_S_D_F ch1.ch_name, match_S_D_F ch2.ch_name with
  | some m1, some m2 =>
    decide (m1.src ≠ m2.src ∨ m1.det ≠ m2.det ∨
      PairVal.num m1.val ≠ pv.1 ∨ PairVal.num m2.val ≠ pv.2)
  | _, _ =>
    match match_S_D_H ch1.ch_name, match_S_D_H ch2.ch_name with
    | some h1, some h2 =>
      decide (¬(h1.val = "hbo" ∨ h1.val = "hbr") ∨ ¬(h2.val = "hbo" ∨ h2.val = "hbr") ∨
        h1.src ≠ h2.src ∨ h1.det ≠ h2.det ∨
        PairVal.str h1.val ≠ pv.1 ∨ PairVal.str h2.val ≠ pv.2)
    | _, _ => false


/-- A naming/ordering/type-mixing violation of the kinds
`_check_channels_ordered` tests for: mixed wavelength and chromophore
families, an odd fNIRS channel count, missing wavelength metadata on a
wavelength channel, or an examined consecutive pair with a non-chromophore
word label or mismatched source/detector groups or pair values. -/
def orderingViolation (info : Info) (pv : PairVal × PairVal) : Prop :=
  (picks_to_idx info wavelengthTypes ≠ [] ∧ picks_to_idx info chromaTypes ≠ []) ∨
  (picks_to_idx info fnirsTypes).length % 2 = 1 ∨
  (∃ ii ∈ picks_to_idx info wavelengthTypes, (info.chs.getD ii default).loc9 = none) ∨
  (∃ ii ∈ everySecond (picks_to_idx info chromaTypes ++ picks_to_idx info wavelengthTypes),
    ii + 1 < info.chs.length ∧
    pairViolation pv (info.chs.getD ii default) (info.chs.getD (ii + 1) default) = true)

instance (info : Info) (pv : PairVal × PairVal) : Decidable (orderingViolation info pv) := by
  unfold orderingViolation
  exact inferInstance

-- ======================================================================
-- Concrete records used as witnesses and counterexamples
-- ======================================================================

/-- A wavelength-family channel with the given name and nominal wavelength
at loc[9]. -/
def mkWaveCh (name : String) (f : ℚ) : Channel :=
  { ch_name := name, ch_type := ChType.fnirs_cw_amplitude,
    loc3 := ⟨0, 0, 0⟩, loc6 := ⟨0, 0, 0⟩, loc9 := some f }

/-- A channel of an arbitrary type with no wavelength metadata. -/
def mkTypeCh (name : String) (t : ChType) : Channel :=
  { ch_name := name, ch_type := t,
    loc3 := ⟨0, 0, 0⟩, loc6 := ⟨0, 0, 0⟩, loc9 := none }

/-- A correctly paired two-channel amplitude record. -/
def w1info : Info := ⟨[mkWaveCh ("S1_D1 760") 760, mkWaveCh ("S1_D1 850") 850], []⟩

/-- Two chromophore-type channels whose word labels match the expected pair
values but are not hbo/hbr. -/
def c1cexInfo : Info :=
  ⟨[mkTypeCh ("S1_D1 foo") ChType.hbo, mkTypeCh ("S1_D1 bar") ChType.hbr], []⟩

/-- Two amplitude channels with unparseable names. -/
def c2cexInfo : Info := ⟨[mkWaveCh ("junk1") 760, mkWaveCh ("junk2") 850], []⟩

/-- Two parseable amplitude channels whose source groups disagree. -/
def c2witInfo : Info := ⟨[mkWaveCh ("S1_D1 760") 760, mkWaveCh ("S2_D1 850") 850], []⟩

/-- A single (unpaired) chromophore channel flagged bad. -/
def c3cexInfo : Info := ⟨[mkTypeCh ("S1_D1 hbo") ChType.hbo], ["S1_D1 hbo"]⟩

/-- A chromophore pair with exactly one member flagged bad. -/
def c3witInfo1 : Info :=
  ⟨[mkTypeCh ("S1_D1 hbo") ChType.hbo, mkTypeCh ("S1_D1 hbr") ChType.hbr], ["S1_D1 hbo"]⟩

/-- A chromophore pair with consistent (empty) bad labelling. -/
def c3witInfo2 : Info :=
  ⟨[mkTypeCh ("S1_D1 hbo") ChType.hbo, mkTypeCh ("S1_D1 hbr") ChType.hbr], []⟩

/-- Three channels, of which only two are fNIRS: an odd total channel count
with an even fNIRS channel count. -/
def c4cexInfo : Info :=
  ⟨[mkWaveCh ("S1_D1 760") 760, mkWaveCh ("S1_D1 850") 850,
    mkTypeCh ("EEG 001") ChType.other], []⟩

/-- A single amplitude channel: an odd fNIRS channel count. -/
def c4witInfo : Info := ⟨[mkWaveCh ("S1_D1 760") 760], []⟩

/-- A record mixing an amplitude channel with a chromophore channel. -/
def c5witInfo : Info :=
  ⟨[mkWaveCh ("S1_D1 760") 760, mkTypeCh ("S1_D1 hbo") ChType.hbo], []⟩

/-- Four fNIRS channels with a duplicated name across different pairs. -/
def c6cexInfo : Info :=
  ⟨[mkWaveCh ("chA") 760, mkWaveCh ("chB") 850, mkWaveCh ("chC") 760, mkWaveCh ("chA") 850],
    ["chC"]⟩

/-- Two fNIRS channels with distinct names, the first flagged bad. -/
def c6witInfo : Info :=
  ⟨[mkWaveCh ("S1_D1 760") 760, mkWaveCh ("S1_D1 850") 850], ["S1_D1 760"]⟩

/-- A two-channel record with distinct optode coordinates. -/
def c7info : Info :=
  ⟨[{ ch_name := "S1_D1 760", ch_type := ChType.fnirs_cw_amplitude,
      loc3 := ⟨0, 0, 0⟩, loc6 := ⟨3, 4, 0⟩, loc9 := some 760 },
    { ch_name := "S1_D1 850", ch_type := ChType.fnirs_cw_amplitude,
      loc3 := ⟨0, 0, 0⟩, loc6 := ⟨3, 4, 0⟩, loc9 := some 850 }], []⟩

/-- A one-channel record used for the threshold witness. -/
def c8info : Info :=
  ⟨[{ ch_name := "S1_D1 760", ch_type := ChType.fnirs_cw_amplitude,
      loc3 := ⟨1, 2, 2⟩, loc6 := ⟨1, 2, 2⟩, loc9 := some 760 }], []⟩

/-- A single fNIRS channel flagged bad: spreading keeps it bad and the
consistency check still raises on the lone slice. -/
def c10cexInfo : Info := ⟨[mkWaveCh ("S1_D1 760") 760], ["S1_D1 760"]⟩

/-- A proper fNIRS pair with one bad member plus a stale non-fNIRS bad
entry. -/
def c10witInfo : Info :=
  ⟨[mkWaveCh ("S1_D1 760") 760, mkWaveCh ("S1_D1 850") 850], ["S1_D1 760", "stale"]⟩

-- ======================================================================
-- General list lemmas
-- ======================================================================

theorem exceptBindOk (x : α) (f : α → Except ε β) :
    (Except.ok x : Except ε α).bind f = f x := rfl

theorem exceptBindErr (e : ε) (f : α → Except ε β) :
    (Except.error e : Except ε α).bind f = Except.error e := rfl

theorem filter_disjoint_length (l : List α) (p q : α → Bool)
    (h : ∀ x ∈ l, ¬(p x = true ∧ q x = true)) :
    (l.filter p).length + (l.filter q).length =
      (l.filter (fun x => p x || q x)).length := by
  induction l with
  | nil => rfl
  | cons a t ih =>
    have ht : ∀ x ∈ t, ¬(p x = true ∧ q x = true) := fun x hx => h x (by simp [hx])
    have ha := h a (by simp)
    have hih := ih ht
    by_cases hp : p a = true
    · have hq : q a = false := by
        cases hqv : q a
        · rfl
        · exact absurd ⟨hp, hqv⟩ ha
      have e1 : List.filter p (a :: t) = a :: List.filter p t := by
        simp [List.filter_cons, hp]
      have e2 : List.filter q (a :: t) = List.filter q t := by
        simp [List.filter_cons, hq]
      have e3 : List.filter (fun x => p x || q x) (a :: t) =
          a :: List.filter (fun x => p x || q x) t := by
        simp [List.filter_cons, hp]
      rw [e1, e2, e3]
      simp only [List.length_cons]
      omega
    · have hp2 : p a = false := by simpa using hp
      have e1 : List.filter p (a :: t) = List.filter p t := by
        simp [List.filter_cons, hp2]
      by_cases hq : q a = true
      · have e2 : List.filter q (a :: t) = a :: List.filter q t := by
          simp [List.filter_cons, hq]
        have e3 : List.filter (fun x => p x || q x) (a :: t) =
            a :: List.filter (fun x => p x || q x) t := by
          simp [List.filter_cons, hp2, hq]
        rw [e1, e2, e3]
        simp only [List.length_cons]
        omega
      · have hq2 : q a = false := by simpa using hq
        have e2 : List.filter q (a :: t) = List.filter q t := by
          simp [List.filter_cons, hq2]
        have e3 : List.filter (fun x => p x || q x) (a :: t) =
            List.filter (fun x => p x || q x) t := by
          simp [List.filter_cons, hp2, hq2]
        rw [e1, e2, e3, hih]

theorem mem_of_mem_everySecond : ∀ (l : List α) (a : α), a ∈ everySecond l → a ∈ l
  | [], _, h => by simp [everySecond] at h
  | [b], a, h => by simpa [everySecond] using h
  | b :: c :: rest, a, h => by
    simp only [everySecond, List.mem_cons] at h
    rcases h with h | h
    · simp [h]
    · have := mem_of_mem_everySecond rest a h
      simp [this]

theorem everySecond_pairwise_gap : ∀ (l : List ℕ), l.Pairwise (· < ·) →
    (everySecond l).Pairwise (fun a b => a + 1 < b)
  | [], _ => by simp [everySecond]
  | [a], _ => by simp [everySecond]
  | a :: b :: rest, h => by
    simp only [List.pairwise_cons, List.mem_cons] at h
    obtain ⟨hab, hb, hrest⟩ := h
    simp only [everySecond, List.pairwise_cons]
    constructor
    · intro x hx
      have hxr : x ∈ rest := mem_of_mem_everySecond rest x hx
      have h1 : a < b := hab b (Or.inl rfl)
      have h2 : b < x := hb x hxr
      omega
    · exact everySecond_pairwise_gap rest hrest

theorem everySecond_succ_lt : ∀ (l : List ℕ), l.Pairwise (· < ·) →
    l.length % 2 = 0 → ∀ n, (∀ m ∈ l, m < n) → ∀ a ∈ everySecond l, a + 1 < n
  | [], _, _, n, _, a, ha => by simp [everySecond] at ha
  | [b], _, hlen, n, _, a, ha => by simp at hlen
  | b :: c :: rest, h, hlen, n, hlt, a, ha => by
    simp only [List.pairwise_cons, List.mem_cons] at h
    obtain ⟨hb, hc, hrest⟩ := h
    simp only [everySecond, List.mem_cons] at ha
    rcases ha with rfl | ha
    · have h1 : a < c := hb c (Or.inl rfl)
      have h2 : c < n := hlt c (by simp)
      omega
    · refine everySecond_succ_lt rest hrest ?_ n ?_ a ha
      · have h2 : (rest.length + 1 + 1) % 2 = 0 := by simpa using hlen
        omega
      · intro m hm
        exact hlt m (by simp [hm])

theorem pairedB_even : ∀ (l : List ℕ), pairedB l = true → l.length % 2 = 0
  | [], _ => rfl
  | [_], h => by simp [pairedB] at h
  | a :: b :: rest, h => by
    simp only [pairedB, Bool.and_eq_true] at h
    have := pairedB_even rest h.2
    simp only [List.length_cons]
    omega

theorem pairedB_evens_mem : ∀ (l : List ℕ), pairedB l = true →
    ∀ a ∈ everySecond l, a ∈ l ∧ a + 1 ∈ l
  | [], _, a, ha => by simp [everySecond] at ha
  | [_], h, a, ha => by simp [pairedB] at h
  | b :: c :: rest, h, a, ha => by
    simp only [pairedB, Bool.and_eq_true, decide_eq_true_eq] at h
    simp only [everySecond, List.mem_cons] at ha
    rcases ha with rfl | ha
    · constructor
      · simp
      · simp [h.1]
    · have := pairedB_evens_mem rest h.2 a ha
      exact ⟨by simp [this.1], by simp [this.2]⟩

theorem nodup_getD_ne (l : List String) (hnd : l.Nodup) (i j : ℕ)
    (hi : i < l.length) (hj : j < l.length) (hij : i ≠ j) :
    l.getD i ("") ≠ l.getD j ("") := by
  rw [List.getD_eq_getElem l ("") hi, List.getD_eq_getElem l ("") hj]
  intro hcontra
  have : (⟨i, hi⟩ : Fin l.length) = ⟨j, hj⟩ := by
    apply hnd.get_inj_iff.mp
    simpa [List.get_eq_getElem] using hcontra
  exact hij (by simpa using congrArg Fin.val this)

-- ======================================================================
-- Lemmas about the pick lists
-- ======================================================================

theorem mem_picks_to_idx (info : Info) (types : List ChType) (i : ℕ) :
    i ∈ picks_to_idx info types ↔
      i < info.chs.length ∧ (info.chs.getD i default).ch_type ∈ types := by
  simp [picks_to_idx, List.mem_filter, List.mem_range]

theorem picks_to_idx_sorted (info : Info) (types : List ChType) :
    (picks_to_idx info types).Pairwise (· < ·) :=
  List.Pairwise.filter _ (List.pairwise_lt_range _)

theorem picks_to_idx_lt (info : Info) (types : List ChType) (i : ℕ)
    (h : i ∈ picks_to_idx info types) : i < info.chs.length :=
  ((mem_picks_to_idx info types i).mp h).1

theorem mem_fnirsTypes_iff (t : ChType) :
    t ∈ fnirsTypes ↔ t ∈ chromaTypes ∨ t ∈ wavelengthTypes := by
  cases t <;> decide

theorem fnirs_eq_chroma_of_no_wave (info : Info)
    (h : picks_to_idx info wavelengthTypes = []) :
    picks_to_idx info fnirsTypes = picks_to_idx info chromaTypes := by
  apply List.filter_congr
  intro i hi
  have hlt : i < info.chs.length := List.mem_range.mp hi
  have hnw : (info.chs.getD i default).ch_type ∉ wavelengthTypes := by
    intro hw
    have : i ∈ picks_to_idx info wavelengthTypes :=
      (mem_picks_to_idx info wavelengthTypes i).mpr ⟨hlt, hw⟩
    rw [h] at this
    simp at this
  have := mem_fnirsTypes_iff (info.chs.getD i default).ch_type
  show decide ((info.chs.getD i default).ch_type ∈ fnirsTypes) =
    decide ((info.chs.getD i default).ch_type ∈ chromaTypes)
  rw [decide_eq_decide]
  by_cases hc : (info.chs.getD i default).ch_type ∈ chromaTypes
  · exact ⟨fun _ => hc, fun _ => this.mpr (Or.inl hc)⟩
  · have hnf : (info.chs.getD i default).ch_type ∉ fnirsTypes := by
      intro hf
      rcases (mem_fnirsTypes_iff _).mp hf with h1 | h1
      · exact hc h1
      · exact hnw h1
    exact ⟨fun hf => absurd hf hnf, fun hcc => absurd hcc hc⟩

theorem fnirs_eq_wave_of_no_chroma (info : Info)
    (h : picks_to_idx info chromaTypes = []) :
    picks_to_idx info fnirsTypes = picks_to_idx info wavelengthTypes := by
  apply List.filter_congr
  intro i hi
  have hlt : i < info.chs.length := List.mem_range.mp hi
  have hnc : (info.chs.getD i default).ch_type ∉ chromaTypes := by
    intro hw
    have : i ∈ picks_to_idx info chromaTypes :=
      (mem_picks_to_idx info chromaTypes i).mpr ⟨hlt, hw⟩
    rw [h] at this
    simp at this
  show decide ((info.chs.getD i default).ch_type ∈ fnirsTypes) =
    decide ((info.chs.getD i default).ch_type ∈ wavelengthTypes)
  rw [decide_eq_decide]
  by_cases hw : (info.chs.getD i default).ch_type ∈ wavelengthTypes
  · exact ⟨fun _ => hw, fun _ => (mem_fnirsTypes_iff _).mpr (Or.inr hw)⟩
  · have hnf : (info.chs.getD i default).ch_type ∉ fnirsTypes := by
      intro hf
      rcases (mem_fnirsTypes_iff _).mp hf with h1 | h1
      · exact hnc h1
      · exact hw h1
    exact ⟨fun hf => absurd hf hnf, fun hww => absurd hww hw⟩

theorem chroma_append_wave_length (info : Info) :
    (picks_to_idx info chromaTypes ++ picks_to_idx info wavelengthTypes).length =
      (picks_to_idx info fnirsTypes).length := by
  rw [List.length_append]
  have hdisj : ∀ i ∈ List.range info.chs.length,
      ¬((decide ((info.chs.getD i default).ch_type ∈ chromaTypes)) = true ∧
        (decide ((info.chs.getD i default).ch_type ∈ wavelengthTypes)) = true) := by
    intro i _
    simp only [decide_eq_true_eq]
    intro hcontra
    rcases hcontra with ⟨h1, h2⟩
    cases hch : (info.chs.getD i default).ch_type <;> rw [hch] at h1 h2 <;>
      simp [chromaTypes, wavelengthTypes] at h1 h2
  have := filter_disjoint_length (List.range info.chs.length)
    (fun i => decide ((info.chs.getD i default).ch_type ∈ chromaTypes))
    (fun i => decide ((info.chs.getD i default).ch_type ∈ wavelengthTypes)) hdisj
  unfold picks_to_idx
  rw [this]
  congr 1
  apply List.filter_congr
  intro i _
  show (decide ((info.chs.getD i default).ch_type ∈ chromaTypes) ||
      decide ((info.chs.getD i default).ch_type ∈ wavelengthTypes)) =
    decide ((info.chs.getD i default).ch_type ∈ fnirsTypes)
  cases hch : (info.chs.getD i default).ch_type <;> rfl

theorem picks0_eq_fnirs (info : Info)
    (hfam : picks_to_idx info wavelengthTypes = [] ∨
      picks_to_idx info chromaTypes = []) :
    picks_to_idx info chromaTypes ++ picks_to_idx info wavelengthTypes =
      picks_to_idx info fnirsTypes := by
  rcases hfam with h | h
  · rw [h, List.append_nil, fnirs_eq_chroma_of_no_wave info h]
  · rw [h, List.nil_append, fnirs_eq_wave_of_no_chroma info h]

-- ======================================================================
-- Lemmas about name slices
-- ======================================================================

theorem ch_names_length (info : Info) : (ch_names info).length = info.chs.length := by
  simp [ch_names]

theorem slice2_pair (l : List String) (ii : ℕ) (h : ii + 1 < l.length) :
    slice2 l ii = [l.getD ii (""), l.getD (ii + 1) ""] := by
  have h0 : ii < l.length := by omega
  unfold slice2
  rw [List.drop_eq_getElem_cons h0, List.take_succ_cons,
    List.drop_eq_getElem_cons h, List.take_succ_cons, List.take_zero,
    List.getD_eq_getElem l ("") h0, List.getD_eq_getElem l ("") h]

theorem slice2_single (l : List String) (ii : ℕ) (h0 : ii < l.length)
    (h1 : l.length ≤ ii + 1) :
    slice2 l ii = [l.getD ii ("")] := by
  unfold slice2
  rw [List.drop_eq_getElem_cons h0, List.take_succ_cons,
    List.drop_eq_nil_of_le h1, List.take_nil, List.getD_eq_getElem l ("") h0]

theorem mem_slice2 (l : List String) (ii : ℕ) (h0 : ii < l.length) (n : String) :
    n ∈ slice2 l ii ↔
      n = l.getD ii ("") ∨ (ii + 1 < l.length ∧ n = l.getD (ii + 1) "") := by
  by_cases h1 : ii + 1 < l.length
  · rw [slice2_pair l ii h1]
    simp [h1]
  · rw [slice2_single l ii h0 (by omega)]
    simp only [List.mem_singleton]
    constructor
    · intro h2
      exact Or.inl h2
    · intro h2
      rcases h2 with h2 | h2
      · exact h2
      · exact absurd h2.1 h1

-- ======================================================================
-- Lemmas about bad-label slices
-- ======================================================================

theorem dedup_pair (n1 n2 : String) (h : n1 ≠ n2) :
    ([n1, n2] : List String).dedup = [n1, n2] := by
  simp [List.dedup_cons_of_not_mem, h]

theorem gotList_len_ne_one_of_consistent (info : Info) (ii : ℕ)
    (h1 : ii + 1 < (ch_names info).length)
    (hne : nameAt info ii ≠ nameAt info (ii + 1))
    (hiff : nameAt info ii ∈ info.bads ↔ nameAt info (ii + 1) ∈ info.bads) :
    (gotList info ii).length ≠ 1 := by
  unfold gotList
  rw [slice2_pair _ _ h1]
  show (([nameAt info ii, nameAt info (ii + 1)]).dedup.filter
    (fun n => decide (n ∈ info.bads))).length ≠ 1
  rw [dedup_pair _ _ hne]
  by_cases hb : nameAt info ii ∈ info.bads
  · have hb2 : nameAt info (ii + 1) ∈ info.bads := hiff.mp hb
    simp [List.filter_cons, hb, hb2]
  · have hb2 : nameAt info (ii + 1) ∉ info.bads := fun hc => hb (hiff.mpr hc)
    simp [List.filter_cons, hb, hb2]

theorem gotList_len_one_of_xor (info : Info) (ii : ℕ)
    (h1 : ii + 1 < (ch_names info).length)
    (hx : xorBadAt info ii) :
    (gotList info ii).length = 1 := by
  have hne : nameAt info ii ≠ nameAt info (ii + 1) := by
    rcases hx with ⟨ha, hb⟩ | ⟨ha, hb⟩ <;> intro hc
    · rw [hc] at ha
      exact hb ha
    · rw [hc] at ha
      exact ha hb
  unfold gotList
  rw [slice2_pair _ _ h1]
  show (([nameAt info ii, nameAt info (ii + 1)]).dedup.filter
    (fun n => decide (n ∈ info.bads))).length = 1
  rw [dedup_pair _ _ hne]
  rcases hx with ⟨ha, hb⟩ | ⟨ha, hb⟩
  · simp [List.filter_cons, ha, hb]
  · simp [List.filter_cons, ha, hb]

theorem consistentBadsAt_got (info : Info) (ii : ℕ)
    (h : consistentBadsAt info ii = true) :
    (gotList info ii).length ≠ 1 := by
  unfold consistentBadsAt at h
  unfold gotList
  cases hs : slice2 (ch_names info) ii with
  | nil => simp
  | cons n1 t =>
    cases t with
    | nil =>
      rw [hs] at h
      simp only [decide_eq_true_eq] at h
      simp [List.filter_cons, h]
    | cons n2 t2 =>
      cases t2 with
      | nil =>
        rw [hs] at h
        simp only [decide_eq_true_eq] at h
        obtain ⟨hne, hiff⟩ := h
        rw [dedup_pair _ _ hne]
        by_cases hb : n1 ∈ info.bads
        · have hb2 : n2 ∈ info.bads := hiff.mp hb
          simp [List.filter_cons, hb, hb2]
        · have hb2 : n2 ∉ info.bads := fun hc => hb (hiff.mpr hc)
          simp [List.filter_cons, hb, hb2]
      | cons n3 t3 =>
        have hlen : (slice2 (ch_names info) ii).length ≤ 2 := by
          unfold slice2
          exact List.length_take_le 2 _
        rw [hs] at hlen
        simp at hlen

theorem check_bads_loop_ok (info : Info) :
    ∀ L : List ℕ, (∀ ii ∈ L, (gotList info ii).length ≠ 1) →
      check_bads_loop info L = Except.ok ()
  | [], _ => rfl
  | ii :: rest, h => by
    unfold check_bads_loop
    rw [if_neg (h ii (by simp))]
    exact check_bads_loop_ok info rest (fun jj hjj => h jj (by simp [hjj]))

theorem check_bads_loop_err (info : Info) :
    ∀ L : List ℕ, (∃ ii ∈ L, (gotList info ii).length = 1) →
      check_bads_loop info L = Except.error PyErr.runtimeError
  | [], h => by simp at h
  | ii :: rest, h => by
    unfold check_bads_loop
    by_cases hg : (gotList info ii).length = 1
    · rw [if_pos hg]
    · rw [if_neg hg]
      refine check_bads_loop_err info rest ?_
      rcases h with ⟨jj, hjj, hg2⟩
      rcases List.mem_cons.mp hjj with rfl | hjj2
      · exact absurd hg2 hg
      · exact ⟨jj, hjj2, hg2⟩

-- ======================================================================
-- Lemmas about `_fnirs_spread_bads`
-- ======================================================================

theorem spread_bads_loop_congr (names bads1 bads2 : List String) :
    ∀ (E : List ℕ), (∀ ii ∈ E, sliceHasBad bads1 names ii = sliceHasBad bads2 names ii) →
      ∀ acc, spread_bads_loop names bads1 E acc = spread_bads_loop names bads2 E acc
  | [], _, acc => rfl
  | ii :: rest, h, acc => by
    unfold spread_bads_loop
    rw [h ii (by simp)]
    exact spread_bads_loop_congr names bads1 bads2 rest
      (fun jj hjj => h jj (by simp [hjj])) _

theorem spread_bads_loop_mem (names bads : List String) :
    ∀ (E : List ℕ) (acc : List String) (x : String),
      x ∈ spread_bads_loop names bads E acc ↔
        x ∈ acc ∨ ∃ ii ∈ E, sliceHasBad bads names ii = true ∧ x ∈ slice2 names ii
  | [], acc, x => by simp [spread_bads_loop]
  | ii :: rest, acc, x => by
    unfold spread_bads_loop
    rw [spread_bads_loop_mem names bads rest _ x]
    by_cases hb : sliceHasBad bads names ii = true
    · rw [if_pos hb]
      simp only [List.mem_append, List.mem_cons]
      constructor
      · intro h
        rcases h with (h | h) | h
        · exact Or.inl h
        · exact Or.inr ⟨ii, by simp, hb, h⟩
        · rcases h with ⟨jj, hjj, hb2, hx⟩
          exact Or.inr ⟨jj, by simp [hjj], hb2, hx⟩
      · intro h
        rcases h with h | h
        · exact Or.inl (Or.inl h)
        · rcases h with ⟨jj, hjj, hb2, hx⟩
          rcases hjj with rfl | hjj
          · exact Or.inl (Or.inr hx)
          · exact Or.inr ⟨jj, hjj, hb2, hx⟩
    · rw [if_neg hb]
      constructor
      · intro h
        rcases h with h | h
        · exact Or.inl h
        · rcases h with ⟨jj, hjj, hb2, hx⟩
          exact Or.inr ⟨jj, by simp [hjj], hb2, hx⟩
      · intro h
        rcases h with h | h
        · exact Or.inl h
        · rcases h with ⟨jj, hjj, hb2, hx⟩
          rcases List.mem_cons.mp hjj with rfl | hjj2
          · exact absurd hb2 hb
          · exact Or.inr ⟨jj, hjj2, hb2, hx⟩

-- ======================================================================
-- Lemmas about the pair loop
-- ======================================================================

theorem check_pair_step_ok (pv : PairVal × PairVal) (te : Bool) (ch1 ch2 : Channel)
    (picks : List ℕ) (h : pairOk pv ch1 ch2 = true) :
    check_pair_step pv te ch1 ch2 picks = Except.ok picks := by
  unfold pairOk at h
  unfold check_pair_step
  cases hf1 : match_S_D_F ch1.ch_name with
  | some m1 =>
    cases hf2 : match_S_D_F ch2.ch_name with
    | some m2 =>
      simp only [hf1, hf2, decide_eq_true_eq] at h
      simp only [hf1, hf2]
      rw [if_neg]
      push_neg
      exact ⟨h.1, h.2.1, h.2.2.1, h.2.2.2⟩
    | none =>
      simp only [hf1, hf2] at h
      simp only [hf1, hf2]
      cases hh1 : match_S_D_H ch1.ch_name with
      | some g1 =>
        cases hh2 : match_S_D_H ch2.ch_name with
        | some g2 =>
          simp only [hh1, hh2, decide_eq_true_eq] at h
          simp only [hh1, hh2]
          rw [if_neg, exceptBindOk, if_neg]
          · push_neg
            exact ⟨h.2.2.1, h.2.2.2.1, h.2.2.2.2.1, h.2.2.2.2.2⟩
          · rw [not_or, not_not, not_not]
            exact ⟨h.1, h.2.1⟩
        | none =>
          simp [hh1, hh2] at h
      | none =>
        simp [hh1] at h
  | none =>
    simp only [hf1] at h
    simp only [hf1]
    cases hh1 : match_S_D_H ch1.ch_name with
    | some g1 =>
      cases hh2 : match_S_D_H ch2.ch_name with
      | some g2 =>
        simp only [hh1, hh2, decide_eq_true_eq] at h
        simp only [hh1, hh2]
        rw [if_neg, exceptBindOk, if_neg]
        · push_neg
          exact ⟨h.2.2.1, h.2.2.2.1, h.2.2.2.2.1, h.2.2.2.2.2⟩
        · rw [not_or, not_not, not_not]
          exact ⟨h.1, h.2.1⟩
      | none =>
        simp [hh1, hh2] at h
    | none =>
      simp [hh1] at h

theorem check_pair_step_nil_of_parseable (pv : PairVal × PairVal) (ch1 ch2 : Channel)
    (h : parseablePair ch1 ch2 = true) :
    check_pair_step pv false ch1 ch2 [] = Except.ok [] := by
  unfold parseablePair at h
  unfold check_pair_step
  cases hf1 : match_S_D_F ch1.ch_name with
  | some m1 =>
    cases hf2 : match_S_D_F ch2.ch_name with
    | some m2 =>
      simp only [hf1, hf2]
      by_cases hc : m1.src ≠ m2.src ∨ m1.det ≠ m2.det ∨
          PairVal.num m1.val ≠ pv.1 ∨ PairVal.num m2.val ≠ pv.2
      · rw [if_pos hc]
        rfl
      · rw [if_neg hc]
    | none =>
      simp only [hf1, hf2]
      cases hh1 : match_S_D_H ch1.ch_name with
      | some g1 =>
        cases hh2 : match_S_D_H ch2.ch_name with
        | some g2 =>
          simp only [hh1, hh2]
          by_cases hc1 : ¬(g1.val = "hbo" ∨ g1.val = "hbr") ∨ ¬(g2.val = "hbo" ∨ g2.val = "hbr")
          · rw [if_pos hc1]
            show (Except.ok ([] : List ℕ)).bind _ = _
            rw [exceptBindOk]
            by_cases hc2 : g1.src ≠ g2.src ∨ g1.det ≠ g2.det ∨
                PairVal.str g1.val ≠ pv.1 ∨ PairVal.str g2.val ≠ pv.2
            · rw [if_pos hc2]
              rfl
            · rw [if_neg hc2]
          · rw [if_neg hc1, exceptBindOk]
            by_cases hc2 : g1.src ≠ g2.src ∨ g1.det ≠ g2.det ∨
                PairVal.str g1.val ≠ pv.1 ∨ PairVal.str g2.val ≠ pv.2
            · rw [if_pos hc2]
              rfl
            · rw [if_neg hc2]
        | none =>
          simp [hf1, hf2, hh1, hh2] at h
      | none =>
        simp [hf1, hf2, hh1] at h
  | none =>
    simp only [hf1]
    cases hh1 : match_S_D_H ch1.ch_name with
    | some g1 =>
      cases hh2 : match_S_D_H ch2.ch_name with
      | some g2 =>
        simp only [hh1, hh2]
        by_cases hc1 : ¬(g1.val = "hbo" ∨ g1.val = "hbr") ∨ ¬(g2.val = "hbo" ∨ g2.val = "hbr")
        · rw [if_pos hc1]
          show (Except.ok ([] : List ℕ)).bind _ = _
          rw [exceptBindOk]
          by_cases hc2 : g1.src ≠ g2.src ∨ g1.det ≠ g2.det ∨
              PairVal.str g1.val ≠ pv.1 ∨ PairVal.str g2.val ≠ pv.2
          · rw [if_pos hc2]
            rfl
          · rw [if_neg hc2]
        · rw [if_neg hc1, exceptBindOk]
          by_cases hc2 : g1.src ≠ g2.src ∨ g1.det ≠ g2.det ∨
              PairVal.str g1.val ≠ pv.1 ∨ PairVal.str g2.val ≠ pv.2
          · rw [if_pos hc2]
            rfl
          · rw [if_neg hc2]
      | none =>
        simp [hf1, hh1, hh2] at h
    | none =>
      simp [hf1, hh1] at h

theorem check_pair_step_viol (pv : PairVal × PairVal) (ch1 ch2 : Channel)
    (picks : List ℕ) (h : pairViolation pv ch1 ch2 = true) :
    check_pair_step pv false ch1 ch2 picks = Except.ok [] := by
  unfold pairViolation at h
  unfold check_pair_step
  cases hf1 : match_S_D_F ch1.ch_name with
  | some m1 =>
    cases hf2 : match_S_D_F ch2.ch_name with
    | some m2 =>
      simp only [hf1, hf2, decide_eq_true_eq] at h
      simp only [hf1, hf2]
      rw [if_pos h]
      rfl
    | none =>
      simp only [hf1, hf2] at h
      simp only [hf1, hf2]
      cases hh1 : match_S_D_H ch1.ch_name with
      | some g1 =>
        cases hh2 : match_S_D_H ch2.ch_name with
        | some g2 =>
          simp only [hh1, hh2, decide_eq_true_eq] at h
          simp only [hh1, hh2]
          rcases h with h | h | h | h | h | h
          · rw [if_pos (Or.inl h)]
            show (Except.ok ([] : List ℕ)).bind _ = _
            rw [exceptBindOk]
            by_cases hc2 : g1.src ≠ g2.src ∨ g1.det ≠ g2.det ∨
                PairVal.str g1.val ≠ pv.1 ∨ PairVal.str g2.val ≠ pv.2
            · rw [if_pos hc2]
              rfl
            · rw [if_neg hc2]
          · rw [if_pos (Or.inr h)]
            show (Except.ok ([] : List ℕ)).bind _ = _
            rw [exceptBindOk]
            by_cases hc2 : g1.src ≠ g2.src ∨ g1.det ≠ g2.det ∨
                PairVal.str g1.val ≠ pv.1 ∨ PairVal.str g2.val ≠ pv.2
            · rw [if_pos hc2]
              rfl
            · rw [if_neg hc2]
          · by_cases hc1 : ¬(g1.val = "hbo" ∨ g1.val = "hbr") ∨ ¬(g2.val = "hbo" ∨ g2.val = "hbr")
            · rw [if_pos hc1]
              show (Except.ok ([] : List ℕ)).bind _ = _
              rw [exceptBindOk, if_pos (Or.inl h)]
              rfl
            · rw [if_neg hc1, exceptBindOk, if_pos (Or.inl h)]
              rfl
          · by_cases hc1 : ¬(g1.val = "hbo" ∨ g1.val = "hbr") ∨ ¬(g2.val = "hbo" ∨ g2.val = "hbr")
            · rw [if_pos hc1]
              show (Except.ok ([] : List ℕ)).bind _ = _
              rw [exceptBindOk, if_pos (Or.inr (Or.inl h))]
              rfl
            · rw [if_neg hc1, exceptBindOk, if_pos (Or.inr (Or.inl h))]
              rfl
          · by_cases hc1 : ¬(g1.val = "hbo" ∨ g1.val = "hbr") ∨ ¬(g2.val = "hbo" ∨ g2.val = "hbr")
            · rw [if_pos hc1]
              show (Except.ok ([] : List ℕ)).bind _ = _
              rw [exceptBindOk, if_pos (Or.inr (Or.inr (Or.inl h)))]
              rfl
            · rw [if_neg hc1, exceptBindOk, if_pos (Or.inr (Or.inr (Or.inl h)))]
              rfl
          · by_cases hc1 : ¬(g1.val = "hbo" ∨ g1.val = "hbr") ∨ ¬(g2.val = "hbo" ∨ g2.val = "hbr")
            · rw [if_pos hc1]
              show (Except.ok ([] : List ℕ)).bind _ = _
              rw [exceptBindOk, if_pos (Or.inr (Or.inr (Or.inr h)))]
              rfl
            · rw [if_neg hc1, exceptBindOk, if_pos (Or.inr (Or.inr (Or.inr h)))]
              rfl
        | none =>
          simp [hh1, hh2] at h
      | none =>
        simp [hh1] at h
  | none =>
    simp only [hf1] at h
    simp only [hf1]
    cases hh1 : match_S_D_H ch1.ch_name with
    | some g1 =>
      cases hh2 : match_S_D_H ch2.ch_name with
      | some g2 =>
        simp only [hh1, hh2, decide_eq_true_eq] at h
        simp only [hh1, hh2]
        rcases h with h | h | h | h | h | h
        · rw [if_pos (Or.inl h)]
          show (Except.ok ([] : List ℕ)).bind _ = _
          rw [exceptBindOk]
          by_cases hc2 : g1.src ≠ g2.src ∨ g1.det ≠ g2.det ∨
              PairVal.str g1.val ≠ pv.1 ∨ PairVal.str g2.val ≠ pv.2
          · rw [if_pos hc2]
            rfl
          · rw [if_neg hc2]
        · rw [if_pos (Or.inr h)]
          show (Except.ok ([] : List ℕ)).bind _ = _
          rw [exceptBindOk]
          by_cases hc2 : g1.src ≠ g2.src ∨ g1.det ≠ g2.det ∨
              PairVal.str g1.val ≠ pv.1 ∨ PairVal.str g2.val ≠ pv.2
          · rw [if_pos hc2]
            rfl
          · rw [if_neg hc2]
        · by_cases hc1 : ¬(g1.val = "hbo" ∨ g1.val = "hbr") ∨ ¬(g2.val = "hbo" ∨ g2.val = "hbr")
          · rw [if_pos hc1]
            show (Except.ok ([] : List ℕ)).bind _ = _
            rw [exceptBindOk, if_pos (Or.inl h)]
            rfl
          · rw [if_neg hc1, exceptBindOk, if_pos (Or.inl h)]
            rfl
        · by_cases hc1 : ¬(g1.val = "hbo" ∨ g1.val = "hbr") ∨ ¬(g2.val = "hbo" ∨ g2.val = "hbr")
          · rw [if_pos hc1]
            show (Except.ok ([] : List ℕ)).bind _ = _
            rw [exceptBindOk, if_pos (Or.inr (Or.inl h))]
            rfl
          · rw [if_neg hc1, exceptBindOk, if_pos (Or.inr (Or.inl h))]
            rfl
        · by_cases hc1 : ¬(g1.val = "hbo" ∨ g1.val = "hbr") ∨ ¬(g2.val = "hbo" ∨ g2.val = "hbr")
          · rw [if_pos hc1]
            show (Except.ok ([] : List ℕ)).bind _ = _
            rw [exceptBindOk, if_pos (Or.inr (Or.inr (Or.inl h)))]
            rfl
          · rw [if_neg hc1, exceptBindOk, if_pos (Or.inr (Or.inr (Or.inl h)))]
            rfl
        · by_cases hc1 : ¬(g1.val = "hbo" ∨ g1.val = "hbr") ∨ ¬(g2.val = "hbo" ∨ g2.val = "hbr")
          · rw [if_pos hc1]
            show (Except.ok ([] : List ℕ)).bind _ = _
            rw [exceptBindOk, if_pos (Or.inr (Or.inr (Or.inr h)))]
            rfl
          · rw [if_neg hc1, exceptBindOk, if_pos (Or.inr (Or.inr (Or.inr h)))]
            rfl
      | none =>
        simp [hh1, hh2] at h
    | none =>
      simp [hh1] at h

theorem pairOk_of_not_violation (pv : PairVal × PairVal) (ch1 ch2 : Channel)
    (hp : parseablePair ch1 ch2 = true) (hv : pairViolation pv ch1 ch2 = false) :
    pairOk pv ch1 ch2 = true := by
  unfold parseablePair at hp
  unfold pairViolation at hv
  unfold pairOk
  cases hf1 : match_S_D_F ch1.ch_name with
  | some m1 =>
    cases hf2 : match_S_D_F ch2.ch_name with
    | some m2 =>
      simp only [hf1, hf2, decide_eq_false_iff_not] at hv
      push_neg at hv
      simp only [hf1, hf2, decide_eq_true_eq]
      exact hv
    | none =>
      simp only [hf1, hf2] at hv
      simp only [hf1, hf2]
      cases hh1 : match_S_D_H ch1.ch_name with
      | some g1 =>
        cases hh2 : match_S_D_H ch2.ch_name with
        | some g2 =>
          simp only [hh1, hh2, decide_eq_false_iff_not] at hv
          push_neg at hv
          simp only [hh1, hh2, decide_eq_true_eq]
          exact hv
        | none =>
          simp [hf1, hf2, hh1, hh2] at hp
      | none =>
        simp [hf1, hf2, hh1] at hp
  | none =>
    simp only [hf1] at hv
    simp only [hf1]
    cases hh1 : match_S_D_H ch1.ch_name with
    | some g1 =>
      cases hh2 : match_S_D_H ch2.ch_name with
      | some g2 =>
        simp only [hh1, hh2, decide_eq_false_iff_not] at hv
        push_neg at hv
        simp only [hh1, hh2, decide_eq_true_eq]
        exact hv
      | none =>
        simp [hf1, hh1, hh2] at hp
    | none =>
      simp [hf1, hh1] at hp

theorem check_pairs_loop_all_ok (info : Info) (pv : PairVal × PairVal) (te : Bool) :
    ∀ (L picks : List ℕ),
      (∀ ii ∈ L, ii + 1 < info.chs.length ∧
        pairOk pv (info.chs.getD ii default) (info.chs.getD (ii + 1) default) = true) →
      check_pairs_loop info pv te L picks = Except.ok picks
  | [], picks, _ => rfl
  | ii :: rest, picks, h => by
    obtain ⟨hlt, hok⟩ := h ii (by simp)
    have hlt0 : ii < info.chs.length := by omega
    have h1 : info.chs[ii]? = some (info.chs.getD ii default) := by
      rw [List.getElem?_eq_getElem hlt0, List.getD_eq_getElem _ _ hlt0]
    have h2 : info.chs[ii + 1]? = some (info.chs.getD (ii + 1) default) := by
      rw [List.getElem?_eq_getElem hlt, List.getD_eq_getElem _ _ hlt]
    unfold check_pairs_loop
    simp only [h1, h2]
    rw [check_pair_step_ok pv te _ _ picks hok, exceptBindOk]
    exact check_pairs_loop_all_ok info pv te rest picks
      (fun jj hjj => h jj (by simp [hjj]))

theorem check_pairs_loop_nil_acc (info : Info) (pv : PairVal × PairVal) :
    ∀ L : List ℕ,
      (∀ ii ∈ L, ii + 1 < info.chs.length ∧
        parseablePair (info.chs.getD ii default) (info.chs.getD (ii + 1) default) = true) →
      check_pairs_loop info pv false L [] = Except.ok []
  | [], _ => rfl
  | ii :: rest, h => by
    obtain ⟨hlt, hpar⟩ := h ii (by simp)
    have hlt0 : ii < info.chs.length := by omega
    have h1 : info.chs[ii]? = some (info.chs.getD ii default) := by
      rw [List.getElem?_eq_getElem hlt0, List.getD_eq_getElem _ _ hlt0]
    have h2 : info.chs[ii + 1]? = some (info.chs.getD (ii + 1) default) := by
      rw [List.getElem?_eq_getElem hlt, List.getD_eq_getElem _ _ hlt]
    unfold check_pairs_loop
    simp only [h1, h2]
    rw [check_pair_step_nil_of_parseable pv _ _ hpar, exceptBindOk]
    exact check_pairs_loop_nil_acc info pv rest (fun jj hjj => h jj (by simp [hjj]))

theorem check_pairs_loop_of_violation (info : Info) (pv : PairVal × PairVal) :
    ∀ (L picks : List ℕ),
      (∀ ii ∈ L, ii + 1 < info.chs.length ∧
        parseablePair (info.chs.getD ii default) (info.chs.getD (ii + 1) default) = true) →
      (∃ ii ∈ L, pairViolation pv (info.chs.getD ii default)
        (info.chs.getD (ii + 1) default) = true) →
      check_pairs_loop info pv false L picks = Except.ok []
  | [], picks, _, hex => by simp at hex
  | ii :: rest, picks, h, hex => by
    obtain ⟨hlt, hpar⟩ := h ii (by simp)
    have hlt0 : ii < info.chs.length := by omega
    have h1 : info.chs[ii]? = some (info.chs.getD ii default) := by
      rw [List.getElem?_eq_getElem hlt0, List.getD_eq_getElem _ _ hlt0]
    have h2 : info.chs[ii + 1]? = some (info.chs.getD (ii + 1) default) := by
      rw [List.getElem?_eq_getElem hlt, List.getD_eq_getElem _ _ hlt]
    unfold check_pairs_loop
    simp only [h1, h2]
    by_cases hv : pairViolation pv (info.chs.getD ii default)
        (info.chs.getD (ii + 1) default) = true
    · rw [check_pair_step_viol pv _ _ picks hv, exceptBindOk]
      exact check_pairs_loop_nil_acc info pv rest (fun jj hjj => h jj (by simp [hjj]))
    · have hv2 : pairViolation pv (info.chs.getD ii default)
          (info.chs.getD (ii + 1) default) = false := by simpa using hv
      rw [check_pair_step_ok pv false _ _ picks
        (pairOk_of_not_violation pv _ _ hpar hv2), exceptBindOk]
      refine check_pairs_loop_of_violation info pv rest picks
        (fun jj hjj => h jj (by simp [hjj])) ?_
      rcases hex with ⟨jj, hjj, hvjj⟩
      rcases List.mem_cons.mp hjj with rfl | hjj2
      · exact absurd hvjj hv
      · exact ⟨jj, hjj2, hvjj⟩

-- ======================================================================
-- Unfolding `_check_channels_ordered`
-- ======================================================================

theorem check_channels_ordered_eq (info : Info) (pv : PairVal × PairVal) (te : Bool) :
    check_channels_ordered info pv te =
      (if 0 < (picks_to_idx info wavelengthTypes).length ∧
          0 < (picks_to_idx info chromaTypes).length then
        throw_or_return_empty te
      else Except.ok (picks_to_idx info chromaTypes ++
        picks_to_idx info wavelengthTypes)).bind (fun picks1 =>
      (if picks1.length % 2 ≠ 0 then throw_or_return_empty te
      else Except.ok picks1).bind (fun picks2 =>
      (if ((picks_to_idx info wavelengthTypes).map
          (fun ii => (info.chs.getD ii default).loc9)).any (fun f => f.isNone) then
        throw_or_return_empty te
      else Except.ok picks2).bind (fun picks3 =>
      (check_pairs_loop info pv te (everySecond picks3) picks3).bind (fun picks4 =>
      (fnirs_check_bads info).bind (fun _ => Except.ok picks4))))) := rfl

theorem picks_pos_of_mem_type (info : Info) (types : List ChType)
    (h : ∃ ch ∈ info.chs, ch.ch_type ∈ types) :
    0 < (picks_to_idx info types).length := by
  obtain ⟨ch, hch, ht⟩ := h
  obtain ⟨i, hi, hEq⟩ := List.mem_iff_getElem.mp hch
  have hmem : i ∈ picks_to_idx info types := by
    apply (mem_picks_to_idx info types i).mpr
    refine ⟨hi, ?_⟩
    rw [List.getD_eq_getElem _ _ hi, hEq]
    exact ht
  exact List.length_pos.mpr (List.ne_nil_of_mem hmem)

-- ======================================================================
-- Distance lemmas
-- ======================================================================

theorem getD_map_of_lt {α : Type u} {β : Type v} (f : α → β) (l : List α) (k : ℕ)
    (hk : k < l.length) (d1 : α) (d2 : β) :
    (l.map f).getD k d2 = f (l.getD k d1) := by
  have hk2 : k < (l.map f).length := by simpa using hk
  rw [List.getD_eq_getElem _ _ hk2, List.getD_eq_getElem _ _ hk]
  simp [List.getElem_map]

theorem vec3_eq_of_parts (a b : Vec3) (hx : a.x = b.x) (hy : a.y = b.y)
    (hz : a.z = b.z) : a = b := by
  cases a
  cases b
  simp_all

theorem sd_dist_eq_eucl (ch : Channel) : sd_dist ch = euclSourceDetectorDist ch := by
  have h := EuclideanSpace.dist_eq (toE3 ch.loc3) (toE3 ch.loc6)
  unfold sd_dist euclSourceDetectorDist
  rw [h, Fin.sum_univ_three]
  unfold toE3
  simp only [WithLp.equiv_symm_pi_apply, Matrix.cons_val_zero, Matrix.cons_val_one,
    Matrix.head_cons, Matrix.cons_val_two, Matrix.tail_cons, Real.dist_eq, sq_abs]
  congr 1
  push_cast
  ring

-- ======================================================================
-- Claim theorems: distances
-- ======================================================================

/-- C7: `source_detector_distances` returns, for the default all-channel
selection and for every explicit selection of valid channel indices, a list
whose length is the number of selected channels and whose k-th entry is the
Euclidean distance between the source coordinates (loc[3:6]) and the
detector coordinates (loc[6:9]) of the k-th selected channel. -/
theorem source_detector_distances_spec (info : Info) :
    ((source_detector_distances info none).length = info.chs.length ∧
      ∀ k, k < info.chs.length →
        (source_detector_distances info none).getD k 0 =
          euclSourceDetectorDist (info.chs.getD k default)) ∧
    (∀ ps : List ℕ, (∀ p ∈ ps, p < info.chs.length) →
      (source_detector_distances info (some ps)).length = ps.length ∧
      ∀ k, k < ps.length →
        (source_detector_distances info (some ps)).getD k 0 =
          euclSourceDetectorDist (info.chs.getD (ps.getD k 0) default)) := by
  constructor
  · constructor
    · simp [source_detector_distances]
    · intro k hk
      show (info.chs.map sd_dist).getD k 0 = _
      rw [getD_map_of_lt sd_dist info.chs k hk default 0, sd_dist_eq_eucl]
  · intro ps hps
    constructor
    · simp [source_detector_distances]
    · intro k hk
      show (ps.map (fun p => (info.chs.map sd_dist).getD p 0)).getD k 0 = _
      rw [getD_map_of_lt _ ps k hk 0 0]
      have hp : ps.getD k 0 ∈ ps := by
        rw [List.getD_eq_getElem _ _ hk]
        exact List.getElem_mem hk
      rw [getD_map_of_lt sd_dist info.chs _ (hps _ hp) default 0, sd_dist_eq_eucl]

/-- Witness for C7 at a concrete record and selection. -/
theorem source_detector_distances_spec_witness :
    (∀ p ∈ [1, 0], p < c7info.chs.length) ∧
    (source_detector_distances c7info (some [1, 0])).length = 2 :=
  ⟨by decide, ((source_detector_distances_spec c7info).2 [1, 0] (by decide)).1⟩

/-- C8: `short_channels` returns one entry per channel, the i-th entry holds
exactly when the source-detector distance of channel i is strictly below the
threshold, and the default threshold is 0.01. -/
theorem short_channels_spec (info : Info) (threshold : ℝ) :
    (short_channels info threshold).length = info.chs.length ∧
    (∀ i, i < info.chs.length →
      ((short_channels info threshold).getD i True ↔
        sd_dist (info.chs.getD i default) < threshold)) ∧
    short_channels info = short_channels info 0.01 := by
  refine ⟨by simp [short_channels, source_detector_distances], ?_, rfl⟩
  intro i hi
  show ((info.chs.map sd_dist).map (fun d => d < threshold)).getD i True ↔ _
  rw [getD_map_of_lt _ _ i (by simpa using hi) 0 True,
    getD_map_of_lt sd_dist info.chs i hi default 0]

/-- Witness for C8 at a concrete record and threshold. -/
theorem short_channels_spec_witness :
    0 < c8info.chs.length ∧
    ((short_channels c8info 1).getD 0 True ↔ sd_dist (c8info.chs.getD 0 default) < 1) :=
  ⟨by decide, (short_channels_spec c8info 1).2.1 0 (by decide)⟩

/-- C9: the per-channel distance mapped by `source_detector_distances` is
symmetric under exchanging the source block with the detector block, and is
zero exactly when the two coordinate blocks coincide. -/
theorem sd_dist_symm_zero (info : Info) (ch : Channel) :
    source_detector_distances info none = info.chs.map sd_dist ∧
    sd_dist (swapSD ch) = sd_dist ch ∧
    (sd_dist ch = 0 ↔ ch.loc3 = ch.loc6) := by
  refine ⟨rfl, ?_, ?_⟩
  · show Real.sqrt _ = Real.sqrt _
    simp only [swapSD]
    congr 1
    push_cast
    ring
  · unfold sd_dist
    rw [Real.sqrt_eq_zero']
    constructor
    · intro hle
      have h1 : (0 : ℝ) ≤ ((ch.loc3.x - ch.loc6.x : ℚ) : ℝ) ^ 2 := sq_nonneg _
      have h2 : (0 : ℝ) ≤ ((ch.loc3.y - ch.loc6.y : ℚ) : ℝ) ^ 2 := sq_nonneg _
      have h3 : (0 : ℝ) ≤ ((ch.loc3.z - ch.loc6.z : ℚ) : ℝ) ^ 2 := sq_nonneg _
      have hx : ((ch.loc3.x - ch.loc6.x : ℚ) : ℝ) = 0 := by nlinarith
      have hy : ((ch.loc3.y - ch.loc6.y : ℚ) : ℝ) = 0 := by nlinarith
      have hz : ((ch.loc3.z - ch.loc6.z : ℚ) : ℝ) = 0 := by nlinarith
      have hx2 : ch.loc3.x = ch.loc6.x := by
        have : (ch.loc3.x - ch.loc6.x : ℚ) = 0 := by exact_mod_cast hx
        linarith [this]
      have hy2 : ch.loc3.y = ch.loc6.y := by
        have : (ch.loc3.y - ch.loc6.y : ℚ) = 0 := by exact_mod_cast hy
        linarith [this]
      have hz2 : ch.loc3.z = ch.loc6.z := by
        have : (ch.loc3.z - ch.loc6.z : ℚ) = 0 := by exact_mod_cast hz
        linarith [this]
      exact vec3_eq_of_parts _ _ hx2 hy2 hz2
    · intro heq
      rw [heq]
      simp

-- ======================================================================
-- Claim theorems: pre-checks of `_check_channels_ordered`
-- ======================================================================

/-- C4 counterexample: a record with an odd TOTAL channel count (three
channels: one fNIRS pair plus one non-fNIRS channel) on which
`_check_channels_ordered` raises nothing and returns the fNIRS pair. -/
theorem check_channels_ordered_odd_total_cex :
    (ch_names c4cexInfo).length = 3 ∧
    check_channels_ordered c4cexInfo (PairVal.num 760, PairVal.num 850) true =
      Except.ok [0, 1] := by
  constructor
  · rfl
  · decide

/-- C4 (amended): a record with an odd number of fNIRS channels always makes
`_check_channels_ordered` raise a `ValueError` in the default throwing
mode. -/
theorem check_channels_ordered_odd_fnirs (info : Info) (pv : PairVal × PairVal)
    (hodd : (picks_to_idx info fnirsTypes).length % 2 = 1) :
    check_channels_ordered info pv true = Except.error PyErr.valueError := by
  rw [check_channels_ordered_eq]
  by_cases hmix : 0 < (picks_to_idx info wavelengthTypes).length ∧
      0 < (picks_to_idx info chromaTypes).length
  · rw [if_pos hmix]
    rfl
  · rw [if_neg hmix, exceptBindOk, if_pos]
    · rfl
    · rw [chroma_append_wave_length info]
      omega

/-- Witness for the amended C4 at a concrete one-channel record. -/
theorem check_channels_ordered_odd_fnirs_witness :
    (picks_to_idx c4witInfo fnirsTypes).length % 2 = 1 ∧
    check_channels_ordered c4witInfo (PairVal.num 760, PairVal.num 850) true =
      Except.error PyErr.valueError :=
  ⟨by decide, check_channels_ordered_odd_fnirs c4witInfo
    (PairVal.num 760, PairVal.num 850) (by decide)⟩

/-- C5: a record holding at least one wavelength-family channel and at least
one chromophore-family channel always makes `_check_channels_ordered` raise
a `ValueError` in the default throwing mode. -/
theorem check_channels_ordered_mixed (info : Info) (pv : PairVal × PairVal)
    (hw : ∃ ch ∈ info.chs, ch.ch_type ∈ wavelengthTypes)
    (hc : ∃ ch ∈ info.chs, ch.ch_type ∈ chromaTypes) :
    check_channels_ordered info pv true = Except.error PyErr.valueError := by
  rw [check_channels_ordered_eq,
    if_pos ⟨picks_pos_of_mem_type info wavelengthTypes hw,
      picks_pos_of_mem_type info chromaTypes hc⟩]
  rfl

/-- Witness for C5 at a concrete mixed record. -/
theorem check_channels_ordered_mixed_witness :
    (∃ ch ∈ c5witInfo.chs, ch.ch_type ∈ wavelengthTypes) ∧
    check_channels_ordered c5witInfo (PairVal.num 760, PairVal.num 850) true =
      Except.error PyErr.valueError :=
  ⟨by decide, check_channels_ordered_mixed c5witInfo
    (PairVal.num 760, PairVal.num 850) (by decide) (by decide)⟩

-- ======================================================================
-- Claim theorems: bad-label consistency
-- ======================================================================

/-- C3 counterexample: a record with a single (unpaired) fNIRS channel
flagged bad.  Every pair (there are none) trivially has both or neither
member bad, yet `_fnirs_check_bads` raises, because the trailing one-name
slice intersects the bads in exactly one name. -/
theorem fnirs_check_bads_cex :
    (∀ ii ∈ everySecond (picks_to_idx c3cexInfo fnirsTypes),
      ii + 1 < c3cexInfo.chs.length →
        (nameAt c3cexInfo ii ∈ c3cexInfo.bads ↔
          nameAt c3cexInfo (ii + 1) ∈ c3cexInfo.bads)) ∧
    fnirs_check_bads c3cexInfo = Except.error PyErr.runtimeError := by
  constructor
  · decide
  · decide

/-- C3 (amended): if some consecutive fNIRS pair has exactly one member in
bads, `_fnirs_check_bads` raises a `RuntimeError`; under the same condition
`_check_channels_ordered` raises some error for every `throw_errors` flag;
and when every pair slice is consistently labelled (distinct names both bad
or both good, no lone trailing bad name), `_fnirs_check_bads` raises
nothing. -/
theorem fnirs_check_bads_spec (info : Info) :
    ((∃ ii ∈ everySecond (picks_to_idx info fnirsTypes),
        ii + 1 < info.chs.length ∧ xorBadAt info ii) →
      fnirs_check_bads info = Except.error PyErr.runtimeError) ∧
    (∀ pv te, (∃ ii ∈ everySecond (picks_to_idx info fnirsTypes),
        ii + 1 < info.chs.length ∧ xorBadAt info ii) →
      ∃ e, check_channels_ordered info pv te = Except.error e) ∧
    ((∀ ii ∈ everySecond (picks_to_idx info fnirsTypes),
        consistentBadsAt info ii = true) →
      fnirs_check_bads info = Except.ok ()) := by
  have herr : (∃ ii ∈ everySecond (picks_to_idx info fnirsTypes),
      ii + 1 < info.chs.length ∧ xorBadAt info ii) →
      fnirs_check_bads info = Except.error PyErr.runtimeError := by
    intro h
    obtain ⟨ii, hmem, hlt, hx⟩ := h
    unfold fnirs_check_bads
    apply check_bads_loop_err
    refine ⟨ii, hmem, ?_⟩
    apply gotList_len_one_of_xor info ii _ hx
    rw [ch_names_length]
    exact hlt
  refine ⟨herr, ?_, ?_⟩
  · intro pv te h
    have hbad := herr h
    rw [check_channels_ordered_eq]
    cases h1 : (if 0 < (picks_to_idx info wavelengthTypes).length ∧
        0 < (picks_to_idx info chromaTypes).length then
      throw_or_return_empty te
    else Except.ok (picks_to_idx info chromaTypes ++
      picks_to_idx info wavelengthTypes)) with
    | error e =>
      rw [exceptBindErr]
      exact ⟨e, rfl⟩
    | ok p1 =>
      rw [exceptBindOk]
      cases h2 : (if p1.length % 2 ≠ 0 then throw_or_return_empty te
          else Except.ok p1) with
      | error e =>
        rw [exceptBindErr]
        exact ⟨e, rfl⟩
      | ok p2 =>
        rw [exceptBindOk]
        cases h3 : (if ((picks_to_idx info wavelengthTypes).map
            (fun ii => (info.chs.getD ii default).loc9)).any (fun f => f.isNone) then
          throw_or_return_empty te
        else Except.ok p2) with
        | error e =>
          rw [exceptBindErr]
          exact ⟨e, rfl⟩
        | ok p3 =>
          rw [exceptBindOk]
          cases h4 : check_pairs_loop info pv te (everySecond p3) p3 with
          | error e =>
            rw [exceptBindErr]
            exact ⟨e, rfl⟩
          | ok p4 =>
            rw [exceptBindOk, hbad, exceptBindErr]
            exact ⟨PyErr.runtimeError, rfl⟩
  · intro h
    unfold fnirs_check_bads
    apply check_bads_loop_ok
    intro ii hii
    exact consistentBadsAt_got info ii (h ii hii)

/-- Witness for the amended C3: the raising part at a record with a
half-bad pair, the non-raising part at a consistently labelled record. -/
theorem fnirs_check_bads_spec_witness :
    (∃ ii ∈ everySecond (picks_to_idx c3witInfo1 fnirsTypes),
      ii + 1 < c3witInfo1.chs.length ∧ xorBadAt c3witInfo1 ii) ∧
    fnirs_check_bads c3witInfo1 = Except.error PyErr.runtimeError ∧
    fnirs_check_bads c3witInfo2 = Except.ok () :=
  ⟨by decide, (fnirs_check_bads_spec c3witInfo1).1 (by decide),
    (fnirs_check_bads_spec c3witInfo2).2.2 (by decide)⟩

-- ======================================================================
-- Claim theorems: correctly paired records (C1)
-- ======================================================================

/-- C1 counterexample: a chromophore-type record whose word-parsed labels
match `pair_vals` exactly and satisfy every condition listed by the claim,
but whose labels are not hbo/hbr, so `_check_channels_ordered` raises
instead of returning the picks. -/
theorem check_channels_ordered_correct_cex :
    picks_to_idx c1cexInfo fnirsTypes = [0, 1] ∧
    check_channels_ordered c1cexInfo (PairVal.str ("foo"), PairVal.str ("bar")) true =
      Except.error PyErr.valueError := by
  constructor
  · decide
  · decide

/-- C1 (amended): for a record of a single fNIRS family whose fNIRS channels
come in consecutive pairs, where each pair parses (wavelength pattern, or
word pattern with hbo/hbr labels) with matching source/detector groups and
the expected ordered pair values, with wavelength metadata present on every
wavelength channel and bad labels consistent across every pair,
`_check_channels_ordered` raises nothing and returns the indices of all
fNIRS channels. -/
theorem check_channels_ordered_correct (info : Info) (pv : PairVal × PairVal)
    (hfam : picks_to_idx info wavelengthTypes = [] ∨
      picks_to_idx info chromaTypes = [])
    (hpaired : pairedB (picks_to_idx info fnirsTypes) = true)
    (hparse : ∀ ii ∈ everySecond (picks_to_idx info fnirsTypes),
      pairOk pv (info.chs.getD ii default) (info.chs.getD (ii + 1) default) = true)
    (hfreq : ∀ ii ∈ picks_to_idx info wavelengthTypes,
      (info.chs.getD ii default).loc9.isSome = true)
    (hbads : ∀ ii ∈ everySecond (picks_to_idx info fnirsTypes),
      nameAt info ii ≠ nameAt info (ii + 1) ∧
      (nameAt info ii ∈ info.bads ↔ nameAt info (ii + 1) ∈ info.bads)) :
    check_channels_ordered info pv true =
      Except.ok (picks_to_idx info fnirsTypes) := by
  have hpicks0 := picks0_eq_fnirs info hfam
  have heven : (picks_to_idx info fnirsTypes).length % 2 = 0 :=
    pairedB_even _ hpaired
  have hmix : ¬(0 < (picks_to_idx info wavelengthTypes).length ∧
      0 < (picks_to_idx info chromaTypes).length) := by
    rcases hfam with h | h <;> rw [h] <;> simp
  have hnan : ((picks_to_idx info wavelengthTypes).map
      (fun ii => (info.chs.getD ii default).loc9)).any (fun f => f.isNone) = false := by
    rw [List.any_eq_false]
    intro f hf
    obtain ⟨ii, hii, rfl⟩ := List.mem_map.mp hf
    obtain ⟨q, hq⟩ := Option.isSome_iff_exists.mp (hfreq ii hii)
    intro hcontra
    rw [hq] at hcontra
    simp at hcontra
  have hloop : ∀ ii ∈ everySecond (picks_to_idx info fnirsTypes),
      ii + 1 < info.chs.length ∧
      pairOk pv (info.chs.getD ii default) (info.chs.getD (ii + 1) default) = true := by
    intro ii hii
    have hmem := pairedB_evens_mem _ hpaired ii hii
    exact ⟨picks_to_idx_lt info fnirsTypes _ hmem.2, hparse ii hii⟩
  have hok : fnirs_check_bads info = Except.ok () := by
    unfold fnirs_check_bads
    apply check_bads_loop_ok
    intro ii hii
    have hmem := pairedB_evens_mem _ hpaired ii hii
    have hlt : ii + 1 < info.chs.length := picks_to_idx_lt info fnirsTypes _ hmem.2
    exact gotList_len_ne_one_of_consistent info ii
      (by rw [ch_names_length]; exact hlt) (hbads ii hii).1 (hbads ii hii).2
  rw [check_channels_ordered_eq, if_neg hmix, hpicks0]
  simp only [exceptBindOk]
  rw [if_neg (by omega)]
  simp only [exceptBindOk]
  rw [hnan]
  simp only [Bool.false_eq_true, if_false, exceptBindOk]
  rw [check_pairs_loop_all_ok info pv true _ _ hloop]
  simp only [exceptBindOk]
  rw [hok]
  rfl

/-- Witness for the amended C1 at a concrete well-formed record. -/
theorem check_channels_ordered_correct_witness :
    pairedB (picks_to_idx w1info fnirsTypes) = true ∧
    check_channels_ordered w1info (PairVal.num 760, PairVal.num 850) true =
      Except.ok (picks_to_idx w1info fnirsTypes) :=
  ⟨by decide, check_channels_ordered_correct w1info (PairVal.num 760, PairVal.num 850)
    (by decide) (by decide) (by decide) (by decide) (by decide)⟩

-- ======================================================================
-- Claim theorems: suppressed-error mode (C2)
-- ======================================================================

theorem throw_or_return_empty_false : throw_or_return_empty false = Except.ok [] := rfl

/-- C2 counterexample: with unparseable channel names and
`throw_errors=False`, `_check_channels_ordered` does not return an empty
result: the source dereferences the failed match object and an
`AttributeError` escapes. -/
theorem check_channels_ordered_suppressed_cex :
    check_channels_ordered c2cexInfo (PairVal.num 760, PairVal.num 850) false =
      Except.error PyErr.attributeError := by
  decide

/-- C2 (amended): on a record violating a naming/ordering/type-mixing rule
(mixed families, odd fNIRS count, missing wavelength metadata, non-hbo/hbr
word labels, or mismatched source/detector groups or pair values), with all
examined pairs parseable and bad labels consistent across fNIRS pair slices,
`_check_channels_ordered` with `throw_errors=False` raises nothing and
returns the empty pick list. -/
theorem check_channels_ordered_suppressed (info : Info) (pv : PairVal × PairVal)
    (hviol : orderingViolation info pv)
    (hparse : ∀ ii ∈ everySecond (picks_to_idx info chromaTypes ++
        picks_to_idx info wavelengthTypes),
      ii + 1 < info.chs.length →
      parseablePair (info.chs.getD ii default) (info.chs.getD (ii + 1) default) = true)
    (hbads : ∀ ii ∈ everySecond (picks_to_idx info fnirsTypes),
      consistentBadsAt info ii = true) :
    check_channels_ordered info pv false = Except.ok [] := by
  have hok : fnirs_check_bads info = Except.ok () := by
    unfold fnirs_check_bads
    apply check_bads_loop_ok
    intro ii hii
    exact consistentBadsAt_got info ii (hbads ii hii)
  rw [check_channels_ordered_eq]
  by_cases hmix : 0 < (picks_to_idx info wavelengthTypes).length ∧
      0 < (picks_to_idx info chromaTypes).length
  · rw [if_pos hmix, throw_or_return_empty_false]
    simp only [exceptBindOk]
    rw [if_neg (by simp)]
    simp only [exceptBindOk]
    rw [ite_self]
    simp only [exceptBindOk]
    rw [show check_pairs_loop info pv false (everySecond ([] : List ℕ)) [] =
      Except.ok [] from rfl]
    simp only [exceptBindOk]
    rw [hok]
    rfl
  · have hfam : picks_to_idx info wavelengthTypes = [] ∨
        picks_to_idx info chromaTypes = [] := by
      rcases not_and_or.mp hmix with h | h
      · exact Or.inl (List.length_eq_zero.mp (Nat.eq_zero_of_not_pos h))
      · exact Or.inr (List.length_eq_zero.mp (Nat.eq_zero_of_not_pos h))
    have hpicks0 := picks0_eq_fnirs info hfam
    rw [if_neg hmix, hpicks0]
    simp only [exceptBindOk]
    rw [hpicks0] at hparse
    by_cases hodd : (picks_to_idx info fnirsTypes).length % 2 = 1
    · rw [if_pos (by omega), throw_or_return_empty_false]
      simp only [exceptBindOk]
      rw [ite_self]
      simp only [exceptBindOk]
      rw [show check_pairs_loop info pv false (everySecond ([] : List ℕ)) [] =
        Except.ok [] from rfl]
      simp only [exceptBindOk]
      rw [hok]
      rfl
    · have heven : (picks_to_idx info fnirsTypes).length % 2 = 0 := by omega
      rw [if_neg (by omega)]
      simp only [exceptBindOk]
      by_cases hnanb : ((picks_to_idx info wavelengthTypes).map
          (fun ii => (info.chs.getD ii default).loc9)).any (fun f => f.isNone) = true
      · rw [if_pos hnanb, throw_or_return_empty_false]
        simp only [exceptBindOk]
        rw [show check_pairs_loop info pv false (everySecond ([] : List ℕ)) [] =
          Except.ok [] from rfl]
        simp only [exceptBindOk]
        rw [hok]
        rfl
      · rw [if_neg hnanb]
        simp only [exceptBindOk]
        have hsucc : ∀ ii ∈ everySecond (picks_to_idx info fnirsTypes),
            ii + 1 < info.chs.length := by
          intro ii hii
          refine everySecond_succ_lt (picks_to_idx info fnirsTypes)
            (picks_to_idx_sorted info fnirsTypes) heven info.chs.length ?_ ii hii
          intro m hm
          exact picks_to_idx_lt info fnirsTypes m hm
        have hpar : ∀ ii ∈ everySecond (picks_to_idx info fnirsTypes),
            ii + 1 < info.chs.length ∧
            parseablePair (info.chs.getD ii default)
              (info.chs.getD (ii + 1) default) = true := by
          intro ii hii
          exact ⟨hsucc ii hii, hparse ii hii (hsucc ii hii)⟩
        rcases hviol with hv1 | hv2 | hv3 | hv4
        · exact absurd ⟨List.length_pos.mpr hv1.1, List.length_pos.mpr hv1.2⟩ hmix
        · exact absurd hv2 hodd
        · obtain ⟨ii, hii, hnone⟩ := hv3
          have : ((picks_to_idx info wavelengthTypes).map
              (fun ii => (info.chs.getD ii default).loc9)).any (fun f => f.isNone) = true := by
            rw [List.any_eq_true]
            refine ⟨(info.chs.getD ii default).loc9, List.mem_map.mpr ⟨ii, hii, rfl⟩, ?_⟩
            rw [hnone]
            rfl
          exact absurd this hnanb
        · rw [hpicks0] at hv4
          obtain ⟨ii, hii, hlt, hviolpair⟩ := hv4
          rw [check_pairs_loop_of_violation info pv _ _ hpar ⟨ii, hii, hviolpair⟩]
          simp only [exceptBindOk]
          rw [hok]
          rfl

/-- Witness for the amended C2 at a record with one mismatched pair. -/
theorem check_channels_ordered_suppressed_witness :
    orderingViolation c2witInfo (PairVal.num 760, PairVal.num 850) ∧
    check_channels_ordered c2witInfo (PairVal.num 760, PairVal.num 850) false =
      Except.ok [] :=
  ⟨by decide, check_channels_ordered_suppressed c2witInfo
    (PairVal.num 760, PairVal.num 850) (by decide) (by decide) (by decide)⟩

-- ======================================================================
-- Disjointness of pair slices
-- ======================================================================

theorem slice2_disjoint_of_gap (names : List String) (hnd : names.Nodup)
    (ii jj : ℕ) (hii : ii < names.length) (hjj : jj < names.length)
    (hgap : ii + 1 < jj ∨ jj + 1 < ii) (n : String)
    (h1 : n ∈ slice2 names ii) : n ∉ slice2 names jj := by
  intro h2
  rw [mem_slice2 names ii hii n] at h1
  rw [mem_slice2 names jj hjj n] at h2
  rcases h1 with h1 | ⟨hlt1, h1⟩ <;> rcases h2 with h2 | ⟨hlt2, h2⟩
  · exact nodup_getD_ne names hnd ii jj hii hjj (by omega) (h1.symm.trans h2)
  · exact nodup_getD_ne names hnd ii (jj + 1) hii hlt2 (by omega) (h1.symm.trans h2)
  · exact nodup_getD_ne names hnd (ii + 1) jj hlt1 hjj (by omega) (h1.symm.trans h2)
  · exact nodup_getD_ne names hnd (ii + 1) (jj + 1) hlt1 hlt2 (by omega) (h1.symm.trans h2)

theorem pairwise_gap_sep (E : List ℕ) (hgap : E.Pairwise (fun a b => a + 1 < b))
    (ii jj : ℕ) (hii : ii ∈ E) (hjj : jj ∈ E) (hne : jj ≠ ii) :
    ii + 1 < jj ∨ jj + 1 < ii := by
  have hS : E.Pairwise (fun a b => a + 1 < b ∨ b + 1 < a) :=
    hgap.imp (fun h => Or.inl h)
  have hsym : Symmetric (fun a b : ℕ => a + 1 < b ∨ b + 1 < a) := by
    intro a b h
    omega
  exact List.Pairwise.forall hsym hS hii hjj (fun h => hne h.symm)

theorem mem_spread_of_hasBad (names bads : List String) (E : List ℕ)
    (ii : ℕ) (hii : ii ∈ E) (hb : sliceHasBad bads names ii = true)
    (n : String) (hn : n ∈ slice2 names ii) :
    n ∈ spread_bads_loop names bads E [] :=
  (spread_bads_loop_mem names bads E [] n).mpr (Or.inr ⟨ii, hii, hb, hn⟩)

theorem not_mem_spread_of_not_hasBad (names bads : List String) (E : List ℕ)
    (hnd : names.Nodup) (hgap : E.Pairwise (fun a b => a + 1 < b))
    (hbound : ∀ ii ∈ E, ii < names.length)
    (ii : ℕ) (hii : ii ∈ E) (hb : sliceHasBad bads names ii = false)
    (n : String) (hn : n ∈ slice2 names ii) :
    n ∉ spread_bads_loop names bads E [] := by
  intro hmem
  rcases (spread_bads_loop_mem names bads E [] n).mp hmem with h | ⟨jj, hjj, hbad2, hs2⟩
  · simp at h
  · have hne : jj ≠ ii := by
      intro heq
      rw [heq, hb] at hbad2
      exact absurd hbad2 (by simp)
    have hgap2 : ii + 1 < jj ∨ jj + 1 < ii :=
      pairwise_gap_sep E hgap ii jj hii hjj hne
    exact slice2_disjoint_of_gap names hnd ii jj (hbound ii hii) (hbound jj hjj)
      hgap2 n hn hs2

theorem spread_loop_idem (names bads : List String) (E : List ℕ)
    (hnd : names.Nodup)
    (hgap : E.Pairwise (fun a b => a + 1 < b))
    (hbound : ∀ ii ∈ E, ii < names.length) :
    spread_bads_loop names (spread_bads_loop names bads E []) E [] =
      spread_bads_loop names bads E [] := by
  apply spread_bads_loop_congr
  intro ii hii
  have hib : ii < names.length := hbound ii hii
  by_cases hb : sliceHasBad bads names ii = true
  · rw [hb]
    unfold sliceHasBad
    rw [List.any_eq_true]
    refine ⟨names.getD ii (""), (mem_slice2 names ii hib _).mpr (Or.inl rfl), ?_⟩
    rw [decide_eq_true_eq]
    exact mem_spread_of_hasBad names bads E ii hii hb _
      ((mem_slice2 names ii hib _).mpr (Or.inl rfl))
  · have hbf : sliceHasBad bads names ii = false := by simpa using hb
    rw [hbf]
    unfold sliceHasBad
    rw [List.any_eq_false]
    intro n hn
    intro hcontra
    rw [decide_eq_true_eq] at hcontra
    exact not_mem_spread_of_not_hasBad names bads E hnd hgap hbound ii hii hbf n hn hcontra

-- ======================================================================
-- Claim theorems: `_fnirs_spread_bads` (C6, C10)
-- ======================================================================

/-- C6 counterexample: with a duplicated channel name across different
pairs, a second application of `_fnirs_spread_bads` adds a name the first
application did not, so the resulting bad sets differ. -/
theorem fnirs_spread_bads_idempotent_cex :
    "chB" ∈ (fnirs_spread_bads (fnirs_spread_bads c6cexInfo)).bads ∧
    "chB" ∉ (fnirs_spread_bads c6cexInfo).bads := by
  constructor
  · decide
  · decide

/-- C6 (amended): on a record with distinct channel names,
`_fnirs_spread_bads` is idempotent: applying it twice gives the same record,
and in particular the same bad set, as applying it once. -/
theorem fnirs_spread_bads_idempotent (info : Info)
    (hnd : (ch_names info).Nodup) :
    fnirs_spread_bads (fnirs_spread_bads info) = fnirs_spread_bads info := by
  have hgap : (everySecond (picks_to_idx info fnirsTypes)).Pairwise
      (fun a b => a + 1 < b) :=
    everySecond_pairwise_gap _ (picks_to_idx_sorted info fnirsTypes)
  have hbound : ∀ ii ∈ everySecond (picks_to_idx info fnirsTypes),
      ii < (ch_names info).length := by
    intro ii hii
    rw [ch_names_length]
    exact picks_to_idx_lt info fnirsTypes ii (mem_of_mem_everySecond _ ii hii)
  have hB2 := spread_loop_idem (ch_names info) info.bads
    (everySecond (picks_to_idx info fnirsTypes)) hnd hgap hbound
  show Info.mk info.chs (spread_bads_loop (ch_names info)
      (spread_bads_loop (ch_names info) info.bads
        (everySecond (picks_to_idx info fnirsTypes)) [])
      (everySecond (picks_to_idx info fnirsTypes)) []) =
    Info.mk info.chs (spread_bads_loop (ch_names info) info.bads
      (everySecond (picks_to_idx info fnirsTypes)) [])
  rw [hB2]

/-- Witness for the amended C6 at a concrete record. -/
theorem fnirs_spread_bads_idempotent_witness :
    (ch_names c6witInfo).Nodup ∧
    fnirs_spread_bads (fnirs_spread_bads c6witInfo) = fnirs_spread_bads c6witInfo :=
  ⟨by decide, fnirs_spread_bads_idempotent c6witInfo (by decide)⟩

/-- C10 counterexample: a lone bad fNIRS channel survives
`_fnirs_spread_bads` unchanged, and `_fnirs_check_bads` still raises on the
resulting record. -/
theorem fnirs_spread_bads_spec_cex :
    fnirs_check_bads (fnirs_spread_bads c10cexInfo) =
      Except.error PyErr.runtimeError := by
  decide

/-- C10 (amended): on a record with distinct channel names whose fNIRS
channels come in consecutive pairs, after `_fnirs_spread_bads` the bads list
holds exactly the names of both members of every pair with at least one
member in the old bads; a name in the old bads that names no fNIRS channel
is dropped; and `_fnirs_check_bads` accepts the resulting record. -/
theorem fnirs_spread_bads_spec (info : Info)
    (hnd : (ch_names info).Nodup)
    (hpaired : pairedB (picks_to_idx info fnirsTypes) = true) :
    (∀ n, n ∈ (fnirs_spread_bads info).bads ↔
      ∃ ii ∈ everySecond (picks_to_idx info fnirsTypes),
        (nameAt info ii ∈ info.bads ∨ nameAt info (ii + 1) ∈ info.bads) ∧
        (n = nameAt info ii ∨ n = nameAt info (ii + 1))) ∧
    (∀ n ∈ info.bads, (∀ i ∈ picks_to_idx info fnirsTypes, nameAt info i ≠ n) →
      n ∉ (fnirs_spread_bads info).bads) ∧
    fnirs_check_bads (fnirs_spread_bads info) = Except.ok () := by
  have hsucc : ∀ ii ∈ everySecond (picks_to_idx info fnirsTypes),
      ii + 1 < (ch_names info).length := by
    intro ii hii
    rw [ch_names_length]
    exact picks_to_idx_lt info fnirsTypes _ (pairedB_evens_mem _ hpaired ii hii).2
  have hslice : ∀ ii ∈ everySecond (picks_to_idx info fnirsTypes),
      slice2 (ch_names info) ii = [nameAt info ii, nameAt info (ii + 1)] := by
    intro ii hii
    exact slice2_pair (ch_names info) ii (hsucc ii hii)
  have hhas : ∀ ii ∈ everySecond (picks_to_idx info fnirsTypes),
      (sliceHasBad info.bads (ch_names info) ii = true ↔
        (nameAt info ii ∈ info.bads ∨ nameAt info (ii + 1) ∈ info.bads)) := by
    intro ii hii
    unfold sliceHasBad
    rw [hslice ii hii]
    simp
  have hmemchar : ∀ n, n ∈ (fnirs_spread_bads info).bads ↔
      ∃ ii ∈ everySecond (picks_to_idx info fnirsTypes),
        (nameAt info ii ∈ info.bads ∨ nameAt info (ii + 1) ∈ info.bads) ∧
        (n = nameAt info ii ∨ n = nameAt info (ii + 1)) := by
    intro n
    show n ∈ spread_bads_loop (ch_names info) info.bads
      (everySecond (picks_to_idx info fnirsTypes)) [] ↔ _
    rw [spread_bads_loop_mem]
    constructor
    · intro h
      rcases h with h | ⟨ii, hii, hb, hs⟩
      · simp at h
      · refine ⟨ii, hii, (hhas ii hii).mp hb, ?_⟩
        rw [hslice ii hii] at hs
        simpa using hs
    · intro h
      rcases h with ⟨ii, hii, hb, hn⟩
      refine Or.inr ⟨ii, hii, (hhas ii hii).mpr hb, ?_⟩
      rw [hslice ii hii]
      simpa using hn
  refine ⟨hmemchar, ?_, ?_⟩
  · intro n hnb hfn hmem
    rcases (hmemchar n).mp hmem with ⟨ii, hii, hb, hn⟩
    have hmm := pairedB_evens_mem _ hpaired ii hii
    rcases hn with rfl | rfl
    · exact hfn ii hmm.1 rfl
    · exact hfn (ii + 1) hmm.2 rfl
  · show check_bads_loop (fnirs_spread_bads info)
      (everySecond (picks_to_idx info fnirsTypes)) = Except.ok ()
    apply check_bads_loop_ok
    intro ii hii
    have hnames : ch_names (fnirs_spread_bads info) = ch_names info := rfl
    have hib : ii < (ch_names info).length := by
      have := hsucc ii hii
      omega
    have hnd2 : nameAt info ii ≠ nameAt info (ii + 1) :=
      nodup_getD_ne (ch_names info) hnd ii (ii + 1)
        hib (hsucc ii hii) (by omega)
    unfold gotList
    rw [hnames, hslice ii hii, dedup_pair _ _ hnd2]
    have hgap : (everySecond (picks_to_idx info fnirsTypes)).Pairwise
        (fun a b => a + 1 < b) :=
      everySecond_pairwise_gap _ (picks_to_idx_sorted info fnirsTypes)
    have hbound : ∀ jj ∈ everySecond (picks_to_idx info fnirsTypes),
        jj < (ch_names info).length := by
      intro jj hjj
      rw [ch_names_length]
      exact picks_to_idx_lt info fnirsTypes jj (mem_of_mem_everySecond _ jj hjj)
    have hn1s : nameAt info ii ∈ slice2 (ch_names info) ii := by
      rw [hslice ii hii]
      simp
    have hn2s : nameAt info (ii + 1) ∈ slice2 (ch_names info) ii := by
      rw [hslice ii hii]
      simp
    by_cases hb : sliceHasBad info.bads (ch_names info) ii = true
    · have h1 : nameAt info ii ∈ (fnirs_spread_bads info).bads :=
        mem_spread_of_hasBad (ch_names info) info.bads _ ii hii hb _ hn1s
      have h2 : nameAt info (ii + 1) ∈ (fnirs_spread_bads info).bads :=
        mem_spread_of_hasBad (ch_names info) info.bads _ ii hii hb _ hn2s
      simp [List.filter_cons, h1, h2]
    · have hbf : sliceHasBad info.bads (ch_names info) ii = false := by simpa using hb
      have h1 : nameAt info ii ∉ (fnirs_spread_bads info).bads :=
        not_mem_spread_of_not_hasBad (ch_names info) info.bads _ hnd hgap hbound
          ii hii hbf _ hn1s
      have h2 : nameAt info (ii + 1) ∉ (fnirs_spread_bads info).bads :=
        not_mem_spread_of_not_hasBad (ch_names info) info.bads _ hnd hgap hbound
          ii hii hbf _ hn2s
      simp [List.filter_cons, h1, h2]

/-- Witness for the amended C10 at a concrete record with one bad pair
member and one stale non-fNIRS bad entry. -/
theorem fnirs_spread_bads_spec_witness :
    (ch_names c10witInfo).Nodup ∧
    pairedB (picks_to_idx c10witInfo fnirsTypes) = true ∧
    fnirs_check_bads (fnirs_spread_bads c10witInfo) = Except.ok () :=
  ⟨by decide, by decide,
    (fnirs_spread_bads_spec c10witInfo (by decide) (by decide)).2.2⟩
